import Mathlib

/-!
Verification of the title-protocol core against its specification.

This file gives a shallow embedding, in Lean 4, of the parts of the
repository relevant to the frozen claims:

* `crates/core/src/lib.rs` — duplicate resolution (`resolve_duplicate`,
  `effective_creation_time`), RFC 3339 parsing
  (`parse_rfc3339_to_epoch`), and the provenance graph walk
  (`build_provenance_graph`, `process_ingredients`).
* `crates/core/src/jumbf.rs` — the JUMBF box parser
  (`read_header`, `read_desc_info`, `extract_signature_from_jumbf`,
  `find_signature_in_manifest`, `find_cbor_in_box`).
* `crates/tee/src/security.rs` — the admission-guarded fetch
  (`proxy_get_secured`) with its incremental weighted-semaphore
  reservation.
* `crates/tee/src/infra/gateway_auth.rs` and the three endpoint
  handlers (`handle_create_tree`, `handle_verify`, `handle_sign`) —
  relay authentication and the worker state machine.
* `crates/tee/src/endpoints/verify/core.rs` / `sign/handler.rs` —
  attestation signing and re-verification.
* `crates/wasm-host/src/lib.rs` — the sandbox host functions.

Byte strings are modelled as `List Nat` (one entry per byte).  Machine
integers are modelled as `Nat`/`Int`; where the Rust code can only see
values far below the overflow bound the embedding uses plain `Nat`
arithmetic.  Fallible Rust functions returning `Result` are embedded as
`Except`; `Option` stays `Option`.  External collaborators (the c2pa
reader, SHA-256, Ed25519) appear as explicit parameters of the
embedding.
-/

-- ===========================================================================
-- §1  Duplicate resolution (crates/core/src/lib.rs, resolve_duplicate)
-- ===========================================================================

/-- Token record for duplicate resolution, mirroring `TokenRecord` in
`crates/core/src/lib.rs`.  `id` and `tsa_pubkey_hash` are byte strings. -/
structure TokenRecord where
  id : List Nat
  tsa_timestamp : Option Nat
  tsa_pubkey_hash : Option (List Nat)
  solana_block_time : Nat
  is_burned : Bool
deriving DecidableEq, Repr

/-- Embedding of `effective_creation_time` from `crates/core/src/lib.rs`:
TSA timestamp if present and trusted (empty trusted list trusts all),
otherwise the Solana block time. -/
def effective_creation_time (token : TokenRecord)
    (trusted_tsa_keys : List (List Nat)) : Nat :=
  match token.tsa_timestamp with
  | some tsa_ts =>
      let is_trusted :=
        if trusted_tsa_keys.isEmpty then
          true
        else
          match token.tsa_pubkey_hash with
          | some hash => trusted_tsa_keys.contains hash
          | none => false
      if is_trusted then tsa_ts else token.solana_block_time
  | none => token.solana_block_time

/-- The comparator passed to `min_by` in `resolve_duplicate`:
effective creation time first, Solana block time as tie break. -/
def token_cmp (trusted_tsa_keys : List (List Nat)) (a b : TokenRecord) :
    Ordering :=
  (compare (effective_creation_time a trusted_tsa_keys)
           (effective_creation_time b trusted_tsa_keys)).then
    (compare a.solana_block_time b.solana_block_time)

/-- Rust's `Iterator::min_by`: the first element minimal under `cmp`
(a later element replaces the accumulator only when strictly smaller). -/
def min_by_first (cmp : α → α → Ordering) : List α → Option α
  | [] => none
  | x :: xs =>
      some (xs.foldl (fun acc y => if cmp acc y = Ordering.gt then y else acc) x)

/-- Embedding of `resolve_duplicate` from `crates/core/src/lib.rs`:
drop burned records, then pick the minimum under `token_cmp`. -/
def resolve_duplicate (tokens : List TokenRecord)
    (trusted_tsa_keys : List (List Nat)) : Option TokenRecord :=
  let active := tokens.filter (fun t => !t.is_burned)
  if active.isEmpty then none
  else min_by_first (token_cmp trusted_tsa_keys) active

-- Facts about `min_by_first`.

theorem foldl_min_mem (cmp : α → α → Ordering) (x : α) (xs : List α) :
    xs.foldl (fun acc y => if cmp acc y = Ordering.gt then y else acc) x
      ∈ x :: xs := by
  induction xs generalizing x with
  | nil => simp
  | cons y ys ih =>
      simp only [List.foldl_cons]
      by_cases hc : cmp x y = Ordering.gt
      · simp only [hc, if_pos rfl]
        have := ih y
        simp only [List.mem_cons] at this ⊢
        tauto
      · simp only [if_neg hc]
        have := ih x
        simp only [List.mem_cons] at this ⊢
        tauto

theorem foldl_min_le (cmp : α → α → Ordering)
    (htrans : ∀ a b c, cmp a b ≠ Ordering.gt → cmp b c ≠ Ordering.gt →
      cmp a c ≠ Ordering.gt)
    (hirr : ∀ a b, cmp a b = Ordering.gt → cmp b a ≠ Ordering.gt)
    (hrefl : ∀ a, cmp a a ≠ Ordering.gt)
    (x : α) (xs : List α) :
    ∀ s ∈ x :: xs,
      cmp (xs.foldl (fun acc y => if cmp acc y = Ordering.gt then y else acc) x)
        s ≠ Ordering.gt := by
  induction xs generalizing x with
  | nil =>
      intro s hs
      simp only [List.mem_cons, List.not_mem_nil, or_false] at hs
      subst hs
      simpa using hrefl s
  | cons y ys ih =>
      intro s hs
      simp only [List.foldl_cons]
      by_cases hc : cmp x y = Ordering.gt
      · simp only [hc, if_pos rfl]
        rcases List.mem_cons.mp hs with hsx | hs'
        · rw [hsx]
          have h1 := ih y y (by simp)
          exact htrans _ y x h1 (hirr x y hc)
        · exact ih y s hs'
      · simp only [if_neg hc]
        rcases List.mem_cons.mp hs with hsx | hs'
        · rw [hsx]
          exact ih x x (by simp)
        · rcases List.mem_cons.mp hs' with hsy | hs''
          · rw [hsy]
            have h1 := ih x x (by simp)
            exact htrans _ x y h1 hc
          · exact ih x s (by simp [hs''])

theorem token_cmp_gt_iff (trusted : List (List Nat)) (a b : TokenRecord) :
    token_cmp trusted a b = Ordering.gt ↔
      (effective_creation_time b trusted < effective_creation_time a trusted ∨
        (effective_creation_time a trusted = effective_creation_time b trusted ∧
          b.solana_block_time < a.solana_block_time)) := by
  unfold token_cmp
  rcases Nat.lt_trichotomy (effective_creation_time a trusted)
      (effective_creation_time b trusted) with h | h | h
  · rw [(Nat.compare_eq_lt).mpr h]
    constructor
    · intro hgt; cases hgt
    · intro hh; omega
  · rw [(Nat.compare_eq_eq).mpr h]
    constructor
    · intro hgt
      right
      exact ⟨h, (Nat.compare_eq_gt).mp hgt⟩
    · intro hh
      rcases hh with hlt | ⟨_, hb⟩
      · omega
      · exact (Nat.compare_eq_gt).mpr hb
  · rw [(Nat.compare_eq_gt).mpr h]
    constructor
    · intro _; left; exact h
    · intro _; rfl

theorem token_cmp_ne_gt_iff (trusted : List (List Nat)) (a b : TokenRecord) :
    token_cmp trusted a b ≠ Ordering.gt ↔
      (effective_creation_time a trusted < effective_creation_time b trusted ∨
        (effective_creation_time a trusted = effective_creation_time b trusted ∧
          a.solana_block_time ≤ b.solana_block_time)) := by
  rw [Ne, token_cmp_gt_iff]
  omega

/-- C5.  `resolve_duplicate` drops burned records, returns `none` iff no
record survives, and otherwise returns a surviving record minimal in the
lexicographic order (effective creation time, ledger block time). -/
theorem resolve_duplicate_correct (tokens : List TokenRecord)
    (trusted : List (List Nat)) :
    (resolve_duplicate tokens trusted = none ↔
      ∀ t ∈ tokens, t.is_burned = true) ∧
    (∀ r, resolve_duplicate tokens trusted = some r →
      r ∈ tokens ∧ r.is_burned = false ∧
      ∀ s ∈ tokens, s.is_burned = false →
        (effective_creation_time r trusted < effective_creation_time s trusted ∨
          (effective_creation_time r trusted =
              effective_creation_time s trusted ∧
            r.solana_block_time ≤ s.solana_block_time))) := by
  have htrans := fun a b c hab hbc =>
    (token_cmp_ne_gt_iff trusted a c).mpr (by
      have h1 := (token_cmp_ne_gt_iff trusted a b).mp hab
      have h2 := (token_cmp_ne_gt_iff trusted b c).mp hbc
      omega)
  have hirr := fun a b hab =>
    (token_cmp_ne_gt_iff trusted b a).mpr (by
      have h1 := (token_cmp_gt_iff trusted a b).mp hab
      omega)
  have hrefl := fun a =>
    (token_cmp_ne_gt_iff trusted a a).mpr (by omega)
  rcases hact : tokens.filter (fun t => !t.is_burned) with _ | ⟨x, xs⟩
  · have hres : resolve_duplicate tokens trusted = none := by
      simp [resolve_duplicate, hact]
    constructor
    · rw [hres]
      constructor
      · intro _ t ht
        by_contra hb
        have : t ∈ tokens.filter (fun t => !t.is_burned) :=
          List.mem_filter.mpr ⟨ht, by simp [hb]⟩
        rw [hact] at this
        cases this
      · intro _; rfl
    · intro r hr
      rw [hres] at hr
      cases hr
  · have hres : resolve_duplicate tokens trusted =
        min_by_first (token_cmp trusted) (x :: xs) := by
      simp only [resolve_duplicate, hact, List.isEmpty_cons]
      rfl
    constructor
    · rw [hres]
      constructor
      · intro h
        simp only [min_by_first] at h
        cases h
      · intro hall
        exfalso
        have hx : x ∈ tokens.filter (fun t => !t.is_burned) := by
          rw [hact]; simp
        have := List.mem_filter.mp hx
        have hb := hall x this.1
        simp [hb] at this
    · intro r hr
      rw [hres] at hr
      simp only [min_by_first, Option.some.injEq] at hr
      subst hr
      have hmem := foldl_min_mem (token_cmp trusted) x xs
      have hmem' : xs.foldl
          (fun acc y => if token_cmp trusted acc y = Ordering.gt then y else acc)
          x ∈ tokens.filter (fun t => !t.is_burned) := by
        rw [hact]; exact hmem
      have hrt := List.mem_filter.mp hmem'
      refine ⟨hrt.1, by simpa using hrt.2, ?_⟩
      intro s hs hsb
      have hsf : s ∈ tokens.filter (fun t => !t.is_burned) :=
        List.mem_filter.mpr ⟨hs, by simp [hsb]⟩
      rw [hact] at hsf
      have := foldl_min_le (token_cmp trusted) htrans hirr hrefl x xs s hsf
      exact (token_cmp_ne_gt_iff trusted _ s).mp this

/-- Witness for C5: the scenario S5 of the spec — token A with trusted TSA
timestamp 1000 beats token B registered earlier at block time 1500. -/
theorem resolve_duplicate_correct_witness :
    (resolve_duplicate
        [⟨[65], some 1000, some [88], 2000, false⟩,
         ⟨[66], none, none, 1500, false⟩] [[88]] =
      some ⟨[65], some 1000, some [88], 2000, false⟩) ∧
    (⟨[65], some 1000, some [88], 2000, false⟩ : TokenRecord) ∈
        [(⟨[65], some 1000, some [88], 2000, false⟩ : TokenRecord),
         ⟨[66], none, none, 1500, false⟩] ∧
    (⟨[65], some 1000, some [88], 2000, false⟩ : TokenRecord).is_burned
        = false ∧
    ∀ s ∈ [(⟨[65], some 1000, some [88], 2000, false⟩ : TokenRecord),
            ⟨[66], none, none, 1500, false⟩], s.is_burned = false →
      (effective_creation_time ⟨[65], some 1000, some [88], 2000, false⟩ [[88]]
          < effective_creation_time s [[88]] ∨
        (effective_creation_time ⟨[65], some 1000, some [88], 2000, false⟩
            [[88]] = effective_creation_time s [[88]] ∧
          (2000 : Nat) ≤ s.solana_block_time)) := by
  refine ⟨by decide, ?_⟩
  exact (resolve_duplicate_correct
    [⟨[65], some 1000, some [88], 2000, false⟩,
     ⟨[66], none, none, 1500, false⟩] [[88]]).2
    ⟨[65], some 1000, some [88], 2000, false⟩ (by decide)

-- ===========================================================================
-- §2  Sandbox host functions (crates/wasm-host/src/lib.rs)
-- ===========================================================================

/-- `copy_from_slice` into a list: overwrite `bytes.length` entries of `mem`
starting at `dest`.  Callers establish `dest + bytes.length ≤ mem.length`. -/
def write_bytes (mem : List Nat) (dest : Nat) (bytes : List Nat) : List Nat :=
  mem.take dest ++ bytes ++ mem.drop (dest + bytes.length)

/-- Embedding of the `read_content_chunk` host function registered in
`register_host_functions` (`crates/wasm-host/src/lib.rs`): copy a clamped
slice of the host-side content into module memory, returning the number of
bytes copied, or `0` when the offset is past the content or the destination
range does not fit. -/
def read_content_chunk (content mem : List Nat)
    (offset length buf_ptr : Nat) : Nat × List Nat :=
  let start := offset
  if start ≥ content.length then (0, mem)
  else
    let endIdx := min (start + length) content.length
    let chunk_len := endIdx - start
    let dest := buf_ptr
    if dest + chunk_len > mem.length then (0, mem)
    else (chunk_len, write_bytes mem dest ((content.drop start).take chunk_len))

/-- Embedding of the `hash_content` host function: digest a clamped content
range with SHA-256/384/512 (selector 0/1/2), write the digest at `out_ptr`,
return the digest size; `0` on any out-of-range condition or unsupported
selector.  The digest functions are parameters (external primitives). -/
def hash_content (sha256 sha384 sha512 : List Nat → List Nat)
    (content mem : List Nat) (algorithm offset length out_ptr : Nat) :
    Nat × List Nat :=
  let start := offset
  if start ≥ content.length then (0, mem)
  else
    let endIdx := min (start + length) content.length
    let data_slice := (content.drop start).take (endIdx - start)
    let hash_bytes :=
      match algorithm with
      | 0 => some (sha256 data_slice)
      | 1 => some (sha384 data_slice)
      | 2 => some (sha512 data_slice)
      | _ => none
    match hash_bytes with
    | none => (0, mem)
    | some hb =>
        if out_ptr + hb.length > mem.length then (0, mem)
        else (hb.length, write_bytes mem out_ptr hb)

/-- Embedding of the `hmac_content` host function: like `hash_content` but
keyed with a slice of module memory; additionally returns `0` when the key
range lies outside module memory. -/
def hmac_content (hmac256 hmac384 hmac512 : List Nat → List Nat → List Nat)
    (content mem : List Nat)
    (algorithm key_ptr key_len offset length out_ptr : Nat) :
    Nat × List Nat :=
  if key_ptr + key_len > mem.length then (0, mem)
  else
    let key := (mem.drop key_ptr).take key_len
    let start := offset
    if start ≥ content.length then (0, mem)
    else
      let endIdx := min (start + length) content.length
      let data_slice := (content.drop start).take (endIdx - start)
      let mac_bytes :=
        match algorithm with
        | 0 => some (hmac256 key data_slice)
        | 1 => some (hmac384 key data_slice)
        | 2 => some (hmac512 key data_slice)
        | _ => none
      match mac_bytes with
      | none => (0, mem)
      | some mb =>
          if out_ptr + mb.length > mem.length then (0, mem)
          else (mb.length, write_bytes mem out_ptr mb)

/-- Embedding of the `get_content_length` host function. -/
def get_content_length (content : List Nat) : Nat :=
  content.length

/-- Embedding of the `get_extension_input` host function: returns the true
input size (copying at most `buf_len` bytes, and nothing at all when the
destination does not fit), `0` when no input is configured. -/
def get_extension_input (extension_input : Option (List Nat))
    (mem : List Nat) (buf_ptr buf_len : Nat) : Nat × List Nat :=
  match extension_input with
  | some input =>
      let actual_size := input.length
      let copy_len := min buf_len input.length
      if buf_ptr + copy_len > mem.length then (actual_size, mem)
      else (actual_size, write_bytes mem buf_ptr (input.take copy_len))
  | none => (0, mem)

theorem write_bytes_length (mem : List Nat) (dest : Nat) (bytes : List Nat)
    (h : dest + bytes.length ≤ mem.length) :
    (write_bytes mem dest bytes).length = mem.length := by
  simp only [write_bytes, List.length_append, List.length_take,
    List.length_drop]
  omega

theorem write_bytes_outside (mem : List Nat) (dest : Nat) (bytes : List Nat)
    (h : dest + bytes.length ≤ mem.length) (i : Nat)
    (hi : i < dest ∨ dest + bytes.length ≤ i) :
    (write_bytes mem dest bytes)[i]? = mem[i]? := by
  unfold write_bytes
  rcases hi with hlo | hhi
  · rw [List.getElem?_append_left (by simp; omega)]
    rw [List.getElem?_append_left (by simp; omega)]
    exact List.getElem?_take_of_lt hlo
  · rw [List.getElem?_append_right (by simp; omega)]
    rw [List.getElem?_drop]
    congr 1
    simp only [List.length_append, List.length_take]
    omega

theorem read_content_chunk_spec (content mem : List Nat)
    (offset length buf_ptr : Nat) :
    (content.length ≤ offset →
      read_content_chunk content mem offset length buf_ptr = (0, mem)) ∧
    (offset < content.length →
      mem.length < buf_ptr + min length (content.length - offset) →
      read_content_chunk content mem offset length buf_ptr = (0, mem)) ∧
    (offset < content.length →
      buf_ptr + min length (content.length - offset) ≤ mem.length →
      (read_content_chunk content mem offset length buf_ptr).1 =
        min length (content.length - offset)) ∧
    (read_content_chunk content mem offset length buf_ptr).2.length =
      mem.length ∧
    (∀ i, (i < buf_ptr ∨
        buf_ptr + (read_content_chunk content mem offset length buf_ptr).1 ≤ i) →
      (read_content_chunk content mem offset length buf_ptr).2[i]? = mem[i]?) := by
  have hchunk : min (offset + length) content.length - offset =
      min length (content.length - offset) := by omega
  simp only [read_content_chunk, ge_iff_le]
  split_ifs with h1 h2
  · exact ⟨fun _ => rfl, fun hlt _ => absurd h1 (by omega), fun hlt _ => absurd h1 (by omega),
      rfl, fun i _ => rfl⟩
  · rw [hchunk] at h2
    exact ⟨fun hle => absurd hle (by omega), fun _ _ => rfl,
      fun _ hfit => absurd h2 (by omega), rfl, fun i _ => rfl⟩
  · rw [hchunk] at h2
    have hlen : ((content.drop offset).take
        (min (offset + length) content.length - offset)).length =
        min length (content.length - offset) := by
      simp only [List.length_take, List.length_drop]
      omega
    have hfit : buf_ptr + ((content.drop offset).take
        (min (offset + length) content.length - offset)).length ≤ mem.length := by
      rw [hlen]; omega
    refine ⟨fun hle => (by omega : False).elim, fun _ h => (by omega : False).elim,
      fun _ _ => by simpa using hchunk, ?_, ?_⟩
    · simpa using write_bytes_length mem buf_ptr _ hfit
    · intro i hi
      simp only at hi ⊢
      refine write_bytes_outside mem buf_ptr _ hfit i ?_
      rcases hi with hlo | hhi
      · left; exact hlo
      · right; omega

/-- Digest sizes of the three supported selectors, as returned by the
`sha2` crate digests. -/
def digest_size (algorithm : Nat) : Nat :=
  match algorithm with
  | 0 => 32
  | 1 => 48
  | _ => 64

theorem hash_content_spec (sha256 sha384 sha512 : List Nat → List Nat)
    (h256 : ∀ d, (sha256 d).length = 32)
    (h384 : ∀ d, (sha384 d).length = 48)
    (h512 : ∀ d, (sha512 d).length = 64)
    (content mem : List Nat) (algorithm offset length out_ptr : Nat) :
    (content.length ≤ offset →
      hash_content sha256 sha384 sha512 content mem algorithm offset length
        out_ptr = (0, mem)) ∧
    (3 ≤ algorithm →
      hash_content sha256 sha384 sha512 content mem algorithm offset length
        out_ptr = (0, mem)) ∧
    (offset < content.length → algorithm < 3 →
      mem.length < out_ptr + digest_size algorithm →
      hash_content sha256 sha384 sha512 content mem algorithm offset length
        out_ptr = (0, mem)) ∧
    (offset < content.length → algorithm < 3 →
      out_ptr + digest_size algorithm ≤ mem.length →
      (hash_content sha256 sha384 sha512 content mem algorithm offset length
        out_ptr).1 = digest_size algorithm) ∧
    (hash_content sha256 sha384 sha512 content mem algorithm offset length
        out_ptr).2.length = mem.length ∧
    (∀ i, (i < out_ptr ∨
        out_ptr + (hash_content sha256 sha384 sha512 content mem algorithm
          offset length out_ptr).1 ≤ i) →
      (hash_content sha256 sha384 sha512 content mem algorithm offset length
        out_ptr).2[i]? = mem[i]?) := by
  simp only [hash_content, ge_iff_le]
  split_ifs with h1
  · exact ⟨fun _ => rfl, fun _ => rfl, fun hlt _ _ => absurd h1 (by omega),
      fun hlt _ _ => absurd h1 (by omega), rfl, fun i _ => rfl⟩
  · match halg : algorithm with
    | 0 =>
        simp only []
        split_ifs with h2
        · exact ⟨fun hle => absurd hle (by omega), fun h3 => absurd h3 (by omega),
            fun _ _ _ => rfl, fun _ _ hfit => absurd h2 (by simp [digest_size, h256] at hfit ⊢; omega),
            rfl, fun i _ => rfl⟩
        · rw [h256] at h2
          refine ⟨fun hle => absurd hle (by omega), fun h3 => absurd h3 (by omega),
            fun _ _ hbig => absurd hbig (by simp [digest_size]; omega),
            fun _ _ _ => by simp [digest_size, h256], ?_, ?_⟩
          · simpa using write_bytes_length mem out_ptr _ (by rw [h256]; omega)
          · intro i hi
            simp only [h256] at hi
            exact write_bytes_outside mem out_ptr _ (by rw [h256]; omega) i
              (hi.imp (fun h => h) (fun h => by rw [h256]; omega))
    | 1 =>
        simp only []
        split_ifs with h2
        · exact ⟨fun hle => absurd hle (by omega), fun h3 => absurd h3 (by omega),
            fun _ _ _ => rfl, fun _ _ hfit => absurd h2 (by simp [digest_size, h384] at hfit ⊢; omega),
            rfl, fun i _ => rfl⟩
        · rw [h384] at h2
          refine ⟨fun hle => absurd hle (by omega), fun h3 => absurd h3 (by omega),
            fun _ _ hbig => absurd hbig (by simp [digest_size]; omega),
            fun _ _ _ => by simp [digest_size, h384], ?_, ?_⟩
          · simpa using write_bytes_length mem out_ptr _ (by rw [h384]; omega)
          · intro i hi
            simp only [h384] at hi
            exact write_bytes_outside mem out_ptr _ (by rw [h384]; omega) i
              (hi.imp (fun h => h) (fun h => by rw [h384]; omega))
    | 2 =>
        simp only []
        split_ifs with h2
        · exact ⟨fun hle => absurd hle (by omega), fun h3 => absurd h3 (by omega),
            fun _ _ _ => rfl, fun _ _ hfit => absurd h2 (by simp [digest_size, h512] at hfit ⊢; omega),
            rfl, fun i _ => rfl⟩
        · rw [h512] at h2
          refine ⟨fun hle => absurd hle (by omega), fun h3 => absurd h3 (by omega),
            fun _ _ hbig => absurd hbig (by simp [digest_size]; omega),
            fun _ _ _ => by simp [digest_size, h512], ?_, ?_⟩
          · simpa using write_bytes_length mem out_ptr _ (by rw [h512]; omega)
          · intro i hi
            simp only [h512] at hi
            exact write_bytes_outside mem out_ptr _ (by rw [h512]; omega) i
              (hi.imp (fun h => h) (fun h => by rw [h512]; omega))
    | (n + 3) =>
        exact ⟨fun hle => absurd hle (by omega), fun _ => rfl,
          fun _ h3 _ => absurd h3 (by omega), fun _ h3 _ => absurd h3 (by omega),
          rfl, fun i _ => rfl⟩

theorem hmac_content_spec
    (hmac256 hmac384 hmac512 : List Nat → List Nat → List Nat)
    (h256 : ∀ k d, (hmac256 k d).length = 32)
    (h384 : ∀ k d, (hmac384 k d).length = 48)
    (h512 : ∀ k d, (hmac512 k d).length = 64)
    (content mem : List Nat)
    (algorithm key_ptr key_len offset length out_ptr : Nat) :
    (content.length ≤ offset →
      hmac_content hmac256 hmac384 hmac512 content mem algorithm key_ptr
        key_len offset length out_ptr = (0, mem)) ∧
    (3 ≤ algorithm →
      hmac_content hmac256 hmac384 hmac512 content mem algorithm key_ptr
        key_len offset length out_ptr = (0, mem)) ∧
    (mem.length < key_ptr + key_len →
      hmac_content hmac256 hmac384 hmac512 content mem algorithm key_ptr
        key_len offset length out_ptr = (0, mem)) ∧
    (offset < content.length → algorithm < 3 →
      mem.length < out_ptr + digest_size algorithm →
      hmac_content hmac256 hmac384 hmac512 content mem algorithm key_ptr
        key_len offset length out_ptr = (0, mem)) ∧
    (hmac_content hmac256 hmac384 hmac512 content mem algorithm key_ptr
        key_len offset length out_ptr).2.length = mem.length ∧
    (∀ i, (i < out_ptr ∨
        out_ptr + (hmac_content hmac256 hmac384 hmac512 content mem algorithm
          key_ptr key_len offset length out_ptr).1 ≤ i) →
      (hmac_content hmac256 hmac384 hmac512 content mem algorithm key_ptr
        key_len offset length out_ptr).2[i]? = mem[i]?) := by
  simp only [hmac_content, ge_iff_le]
  split_ifs with h0 h1
  · exact ⟨fun _ => rfl, fun _ => rfl, fun _ => rfl, fun _ _ _ => rfl,
      rfl, fun i _ => rfl⟩
  · exact ⟨fun _ => rfl, fun _ => rfl, fun hk => absurd h0 (by omega),
      fun hlt _ _ => absurd h1 (by omega), rfl, fun i _ => rfl⟩
  · match halg : algorithm with
    | 0 =>
        simp only []
        split_ifs with h2
        · exact ⟨fun hle => absurd hle (by omega), fun h3 => absurd h3 (by omega),
            fun hk => absurd h0 (by omega), fun _ _ _ => rfl, rfl, fun i _ => rfl⟩
        · rw [h256] at h2
          refine ⟨fun hle => absurd hle (by omega), fun h3 => absurd h3 (by omega),
            fun hk => absurd h0 (by omega),
            fun _ _ hbig => absurd hbig (by simp [digest_size]; omega), ?_, ?_⟩
          · simpa using write_bytes_length mem out_ptr _ (by rw [h256]; omega)
          · intro i hi
            simp only [h256] at hi
            exact write_bytes_outside mem out_ptr _ (by rw [h256]; omega) i
              (hi.imp (fun h => h) (fun h => by rw [h256]; omega))
    | 1 =>
        simp only []
        split_ifs with h2
        · exact ⟨fun hle => absurd hle (by omega), fun h3 => absurd h3 (by omega),
            fun hk => absurd h0 (by omega), fun _ _ _ => rfl, rfl, fun i _ => rfl⟩
        · rw [h384] at h2
          refine ⟨fun hle => absurd hle (by omega), fun h3 => absurd h3 (by omega),
            fun hk => absurd h0 (by omega),
            fun _ _ hbig => absurd hbig (by simp [digest_size]; omega), ?_, ?_⟩
          · simpa using write_bytes_length mem out_ptr _ (by rw [h384]; omega)
          · intro i hi
            simp only [h384] at hi
            exact write_bytes_outside mem out_ptr _ (by rw [h384]; omega) i
              (hi.imp (fun h => h) (fun h => by rw [h384]; omega))
    | 2 =>
        simp only []
        split_ifs with h2
        · exact ⟨fun hle => absurd hle (by omega), fun h3 => absurd h3 (by omega),
            fun hk => absurd h0 (by omega), fun _ _ _ => rfl, rfl, fun i _ => rfl⟩
        · rw [h512] at h2
          refine ⟨fun hle => absurd hle (by omega), fun h3 => absurd h3 (by omega),
            fun hk => absurd h0 (by omega),
            fun _ _ hbig => absurd hbig (by simp [digest_size]; omega), ?_, ?_⟩
          · simpa using write_bytes_length mem out_ptr _ (by rw [h512]; omega)
          · intro i hi
            simp only [h512] at hi
            exact write_bytes_outside mem out_ptr _ (by rw [h512]; omega) i
              (hi.imp (fun h => h) (fun h => by rw [h512]; omega))
    | (n + 3) =>
        exact ⟨fun hle => absurd hle (by omega), fun _ => rfl,
          fun hk => absurd h0 (by omega), fun _ h3 _ => absurd h3 (by omega),
          rfl, fun i _ => rfl⟩

/-- C10.  Each sandbox host function is total (the embedding is a total
function) and clamps its ranges: `read_content_chunk`, `hash_content` and
`hmac_content` return `0` and leave module memory untouched whenever the
content offset is at or past the content length, the algorithm selector is
unsupported, or the destination range does not fit in module memory; no
call changes the module memory length or any byte outside the written
destination range; and otherwise `read_content_chunk` copies exactly
`min length (content_length - offset)` bytes and returns that count. -/
theorem sandbox_host_functions_clamped
    (sha256 sha384 sha512 : List Nat → List Nat)
    (hmac256 hmac384 hmac512 : List Nat → List Nat → List Nat)
    (hs256 : ∀ d, (sha256 d).length = 32)
    (hs384 : ∀ d, (sha384 d).length = 48)
    (hs512 : ∀ d, (sha512 d).length = 64)
    (hm256 : ∀ k d, (hmac256 k d).length = 32)
    (hm384 : ∀ k d, (hmac384 k d).length = 48)
    (hm512 : ∀ k d, (hmac512 k d).length = 64)
    (content mem : List Nat) :
    (∀ offset length buf_ptr,
      (content.length ≤ offset →
        read_content_chunk content mem offset length buf_ptr = (0, mem)) ∧
      (offset < content.length →
        mem.length < buf_ptr + min length (content.length - offset) →
        read_content_chunk content mem offset length buf_ptr = (0, mem)) ∧
      (offset < content.length →
        buf_ptr + min length (content.length - offset) ≤ mem.length →
        (read_content_chunk content mem offset length buf_ptr).1 =
          min length (content.length - offset)) ∧
      (read_content_chunk content mem offset length buf_ptr).2.length =
        mem.length ∧
      (∀ i, (i < buf_ptr ∨ buf_ptr +
          (read_content_chunk content mem offset length buf_ptr).1 ≤ i) →
        (read_content_chunk content mem offset length buf_ptr).2[i]? =
          mem[i]?)) ∧
    (∀ algorithm offset length out_ptr,
      (content.length ≤ offset →
        hash_content sha256 sha384 sha512 content mem algorithm offset length
          out_ptr = (0, mem)) ∧
      (3 ≤ algorithm →
        hash_content sha256 sha384 sha512 content mem algorithm offset length
          out_ptr = (0, mem)) ∧
      (offset < content.length → algorithm < 3 →
        mem.length < out_ptr + digest_size algorithm →
        hash_content sha256 sha384 sha512 content mem algorithm offset length
          out_ptr = (0, mem)) ∧
      (offset < content.length → algorithm < 3 →
        out_ptr + digest_size algorithm ≤ mem.length →
        (hash_content sha256 sha384 sha512 content mem algorithm offset length
          out_ptr).1 = digest_size algorithm) ∧
      (hash_content sha256 sha384 sha512 content mem algorithm offset length
          out_ptr).2.length = mem.length ∧
      (∀ i, (i < out_ptr ∨ out_ptr +
          (hash_content sha256 sha384 sha512 content mem algorithm offset
            length out_ptr).1 ≤ i) →
        (hash_content sha256 sha384 sha512 content mem algorithm offset length
          out_ptr).2[i]? = mem[i]?)) ∧
    (∀ algorithm key_ptr key_len offset length out_ptr,
      (content.length ≤ offset →
        hmac_content hmac256 hmac384 hmac512 content mem algorithm key_ptr
          key_len offset length out_ptr = (0, mem)) ∧
      (3 ≤ algorithm →
        hmac_content hmac256 hmac384 hmac512 content mem algorithm key_ptr
          key_len offset length out_ptr = (0, mem)) ∧
      (mem.length < key_ptr + key_len →
        hmac_content hmac256 hmac384 hmac512 content mem algorithm key_ptr
          key_len offset length out_ptr = (0, mem)) ∧
      (offset < content.length → algorithm < 3 →
        mem.length < out_ptr + digest_size algorithm →
        hmac_content hmac256 hmac384 hmac512 content mem algorithm key_ptr
          key_len offset length out_ptr = (0, mem)) ∧
      (hmac_content hmac256 hmac384 hmac512 content mem algorithm key_ptr
          key_len offset length out_ptr).2.length = mem.length ∧
      (∀ i, (i < out_ptr ∨ out_ptr +
          (hmac_content hmac256 hmac384 hmac512 content mem algorithm key_ptr
            key_len offset length out_ptr).1 ≤ i) →
        (hmac_content hmac256 hmac384 hmac512 content mem algorithm key_ptr
          key_len offset length out_ptr).2[i]? = mem[i]?)) :=
  ⟨fun offset length buf_ptr =>
      read_content_chunk_spec content mem offset length buf_ptr,
    fun algorithm offset length out_ptr =>
      hash_content_spec sha256 sha384 sha512 hs256 hs384 hs512 content mem
        algorithm offset length out_ptr,
    fun algorithm key_ptr key_len offset length out_ptr =>
      hmac_content_spec hmac256 hmac384 hmac512 hm256 hm384 hm512 content mem
        algorithm key_ptr key_len offset length out_ptr⟩

/-- Witness for C10 at concrete inputs: a clamped in-bounds read copies
`min 5 (3 - 1) = 2` bytes, an unsupported hash selector returns `0` with
memory untouched, and an out-of-memory HMAC key range returns `0`. -/
theorem sandbox_host_functions_clamped_witness :
    ((read_content_chunk [10, 20, 30] (List.replicate 8 0) 1 5 2).1 =
      min 5 (([10, 20, 30] : List Nat).length - 1)) ∧
    (hash_content (fun _ => List.replicate 32 1) (fun _ => List.replicate 48 1)
        (fun _ => List.replicate 64 1) [10, 20, 30] (List.replicate 8 0)
        7 0 3 0 = (0, List.replicate 8 0)) ∧
    (hmac_content (fun _ _ => List.replicate 32 1)
        (fun _ _ => List.replicate 48 1) (fun _ _ => List.replicate 64 1)
        [10, 20, 30] (List.replicate 8 0) 0 9 1 0 3 0 =
      (0, List.replicate 8 0)) := by
  have T := sandbox_host_functions_clamped
    (fun _ => List.replicate 32 1) (fun _ => List.replicate 48 1)
    (fun _ => List.replicate 64 1)
    (fun _ _ => List.replicate 32 1) (fun _ _ => List.replicate 48 1)
    (fun _ _ => List.replicate 64 1)
    (fun _ => rfl) (fun _ => rfl) (fun _ => rfl)
    (fun _ _ => rfl) (fun _ _ => rfl) (fun _ _ => rfl)
    [10, 20, 30] (List.replicate 8 0)
  exact ⟨(T.1 1 5 2).2.2.1 (by decide) (by decide),
    (T.2.1 7 0 3 0).2.1 (by decide),
    (T.2.2 0 9 1 0 3 0).2.2.1 (by decide)⟩

-- ===========================================================================
-- §3  Admission-guarded fetch (crates/tee/src/security.rs, proxy_get_secured)
-- ===========================================================================

/-- The 64 KiB chunk size of the incremental semaphore reservation
(`CHUNK_SIZE` in `crates/tee/src/security.rs`). -/
def CHUNK_SIZE : Nat := 64 * 1024

/-- `SecurityError` from `crates/tee/src/security.rs`. -/
inductive SecurityError where
  | payloadTooLarge (size limit : Nat)
  | memoryLimitExceeded
  | chunkReadTimeout (timeout_sec : Nat)
  | globalTimeout
  | io
  | proxyError (status : Nat)
deriving DecidableEq, Repr

/-- `ProxyResponse` from `crates/tee/src/proxy_client.rs`. -/
structure ProxyResponse where
  status : Nat
  body : List Nat
deriving DecidableEq, Repr

/-- Outcome of one 64 KiB `read_exact` wrapped in the per-chunk timeout:
the chunk arrives in full, the deadline fires first, or the socket errors.
`ok` carries the bytes `read_exact` wrote (exactly the requested
`to_read` bytes when the read succeeds). -/
inductive ReadOutcome where
  | ok (bytes : List Nat)
  | timeout
  | ioError
deriving DecidableEq, Repr

/-- The chunk loop of `proxy_get_secured` (`crates/tee/src/security.rs`,
lines 238-261): read a chunk under the per-chunk deadline, then
`try_acquire_many` that many semaphore units and `forget` the permit;
on success of the whole loop, `add_permits(total_reserved)`.
The returned `Nat` is the semaphore's available permits when the
function returns.  Note that on the three error returns inside the loop
the forgotten permits of earlier chunks are *not* added back. -/
def proxy_read_loop (chunk_timeout_sec : Nat) (status : Nat) :
    Nat → List ReadOutcome → List Nat → Nat → Nat →
    (Except SecurityError ProxyResponse) × Nat
  | remaining, reads, buffer, total_reserved, sem =>
      if remaining = 0 then
        -- 処理完了後にセマフォを解放 (release after completion)
        (Except.ok ⟨status, buffer⟩, sem + total_reserved)
      else
        let to_read := min remaining CHUNK_SIZE
        match reads with
        | [] => (Except.error SecurityError.io, sem)
        | ReadOutcome.timeout :: _ =>
            (Except.error (SecurityError.chunkReadTimeout chunk_timeout_sec), sem)
        | ReadOutcome.ioError :: _ =>
            (Except.error SecurityError.io, sem)
        | ReadOutcome.ok bytes :: rest =>
            if to_read ≤ sem then
              proxy_read_loop chunk_timeout_sec status (remaining - to_read)
                rest (buffer ++ bytes) (total_reserved + to_read)
                (sem - to_read)
            else
              (Except.error SecurityError.memoryLimitExceeded, sem)

/-- Embedding of `proxy_get_secured` (proxy-protocol path) from
`crates/tee/src/security.rs`: check status, check the declared size
against the ceiling before reading any body byte, then run the chunk
loop.  `sem` is the process-wide admission semaphore's available permit
count; the second component of the result is its value on return. -/
def proxy_get_secured (status declared_size : Nat)
    (reads : List ReadOutcome) (max_size_bytes : Nat)
    (chunk_timeout_sec : Nat) (sem : Nat) :
    (Except SecurityError ProxyResponse) × Nat :=
  if status ≠ 200 then (Except.error (SecurityError.proxyError status), sem)
  else if declared_size > max_size_bytes then
    (Except.error (SecurityError.payloadTooLarge declared_size max_size_bytes),
      sem)
  else if declared_size = 0 then (Except.ok ⟨status, []⟩, sem)
  else proxy_read_loop chunk_timeout_sec status declared_size reads [] 0 sem

/-- C1 (refuted).  The fetch at a failing input: a 200 response declaring
128 KiB, whose first 64 KiB chunk arrives and whose second chunk read
times out.  The call returns `ChunkReadTimeout` with the 65536 permits
acquired for the first chunk still missing from the semaphore: available
permits after the call are *not* equal to available permits before. -/
theorem proxy_get_secured_leaks_on_timeout :
    proxy_get_secured 200 (128 * 1024)
        [ReadOutcome.ok (List.replicate (64 * 1024) 204), ReadOutcome.timeout]
        (1024 * 1024) 30 (1024 * 1024) =
      (Except.error (SecurityError.chunkReadTimeout 30),
        1024 * 1024 - 64 * 1024) ∧
    (1024 * 1024 - 64 * 1024 : Nat) ≠ 1024 * 1024 := by
  constructor
  · rfl
  · decide

-- ===========================================================================
-- §4  JSON values, serde_json rendering, idealized Ed25519
-- ===========================================================================

/-- ASCII bytes of a Lean string literal (all literals used are ASCII). -/
def utf8Bytes (s : String) : List Nat :=
  s.data.map Char.toNat

/-- `serde_json::Value`, restricted to the shapes the worker produces
(numbers in the worker's JSON are unsigned integers).  An `obj` holds its
fields in exactly the order `serde_json` serializes them: sorted key
order for map-backed values (the `json!` macro, `to_value` of a struct),
declaration order for direct struct serialization. -/
inductive Json where
  | null
  | bool (b : Bool)
  | num (n : Nat)
  | str (s : List Nat)
  | arr (elems : List Json)
  | obj (fields : List (List Nat × Json))

/-- Decimal digit bytes of a natural number (fuel-structured so that the
kernel can evaluate it). -/
def natToDecimalAux : Nat → Nat → List Nat
  | 0, _ => []
  | fuel + 1, n =>
      if n < 10 then [48 + n]
      else natToDecimalAux fuel (n / 10) ++ [48 + n % 10]

/-- Decimal rendering of a natural number, as `serde_json` writes it. -/
def natToDecimal (n : Nat) : List Nat :=
  natToDecimalAux (n + 1) n

/-- Lowercase hex digit byte, as used in `\u00XX` escapes. -/
def hexDigitByte (n : Nat) : Nat :=
  if n < 10 then 48 + n else 87 + n

/-- `serde_json`'s escaping of one byte inside a string literal. -/
def escapeByte (b : Nat) : List Nat :=
  if b = 34 then [92, 34]
  else if b = 92 then [92, 92]
  else if b = 8 then [92, 98]
  else if b = 9 then [92, 116]
  else if b = 10 then [92, 110]
  else if b = 12 then [92, 102]
  else if b = 13 then [92, 114]
  else if b < 32 then [92, 117, 48, 48, hexDigitByte (b / 16), hexDigitByte (b % 16)]
  else [b]

/-- A JSON string literal: quote, escaped bytes, quote. -/
def renderStringBytes (s : List Nat) : List Nat :=
  [34] ++ s.flatMap escapeByte ++ [34]

mutual

/-- Compact `serde_json::to_vec` rendering: no whitespace, fields in the
order carried by the value. -/
def renderJson : Json → List Nat
  | Json.null => [110, 117, 108, 108]
  | Json.bool true => [116, 114, 117, 101]
  | Json.bool false => [102, 97, 108, 115, 101]
  | Json.num n => natToDecimal n
  | Json.str s => renderStringBytes s
  | Json.arr es => [91] ++ renderJsonArray es ++ [93]
  | Json.obj fs => [123] ++ renderJsonObject fs ++ [125]

def renderJsonArray : List Json → List Nat
  | [] => []
  | [e] => renderJson e
  | e :: e2 :: rest => renderJson e ++ [44] ++ renderJsonArray (e2 :: rest)

def renderJsonObject : List (List Nat × Json) → List Nat
  | [] => []
  | [(k, v)] => renderStringBytes k ++ [58] ++ renderJson v
  | (k, v) :: f2 :: rest =>
      renderStringBytes k ++ [58] ++ renderJson v ++ [44] ++
        renderJsonObject (f2 :: rest)

end

/-- Field lookup on a JSON object (`Value::get`). -/
def jsonGet (j : Json) (key : List Nat) : Option Json :=
  match j with
  | Json.obj fs => fs.lookup key
  | _ => none

/-- Idealized Ed25519 signature: in the symbolic model a signature
remembers which keypair produced it and over which message
(EUF-CMA idealization of `ed25519_dalek`).  Keypairs are identified with
their public key, a `Nat`. -/
structure Ed25519Sig where
  signer : Nat
  message : List Nat
deriving DecidableEq, Repr

/-- Idealized signing. -/
def ed25519_sign (sk : Nat) (msg : List Nat) : Ed25519Sig :=
  ⟨sk, msg⟩

/-- Idealized strict verification: succeeds exactly on signatures the
named keypair produced over exactly this message. -/
def ed25519_verify (pk : Nat) (msg : List Nat) (sig : Ed25519Sig) : Bool :=
  sig.signer == pk && sig.message == msg

-- ===========================================================================
-- §5  Relay (gateway) authentication (crates/tee/src/infra/gateway_auth.rs)
-- ===========================================================================

/-- `ResourceLimits` from `crates/types/src/lib.rs`. -/
structure ResourceLimits where
  max_single_content_bytes : Option Nat
  max_concurrent_bytes : Option Nat
  min_upload_speed_bytes : Option Nat
  base_processing_time_sec : Option Nat
  max_global_timeout_sec : Option Nat
  chunk_read_timeout_sec : Option Nat
  c2pa_max_graph_size : Option Nat
deriving DecidableEq, Repr

/-- Serde serialization of `ResourceLimits` (struct fields in declaration
order, `None` fields skipped). -/
def resourceLimitsToJson (rl : ResourceLimits) : Json :=
  Json.obj
    ((match rl.max_single_content_bytes with
      | some v => [(utf8Bytes "max_single_content_bytes", Json.num v)]
      | none => []) ++
     (match rl.max_concurrent_bytes with
      | some v => [(utf8Bytes "max_concurrent_bytes", Json.num v)]
      | none => []) ++
     (match rl.min_upload_speed_bytes with
      | some v => [(utf8Bytes "min_upload_speed_bytes", Json.num v)]
      | none => []) ++
     (match rl.base_processing_time_sec with
      | some v => [(utf8Bytes "base_processing_time_sec", Json.num v)]
      | none => []) ++
     (match rl.max_global_timeout_sec with
      | some v => [(utf8Bytes "max_global_timeout_sec", Json.num v)]
      | none => []) ++
     (match rl.chunk_read_timeout_sec with
      | some v => [(utf8Bytes "chunk_read_timeout_sec", Json.num v)]
      | none => []) ++
     (match rl.c2pa_max_graph_size with
      | some v => [(utf8Bytes "c2pa_max_graph_size", Json.num v)]
      | none => []))

/-- The byte string the gateway signs and the worker re-serializes:
`GatewayAuthSignTarget { method, path, body, resource_limits }` in
declaration order (`serde_json::to_vec` of the struct). -/
def signTargetBytes (method path : List Nat) (body : Json)
    (resource_limits : Option ResourceLimits) : List Nat :=
  renderJson (Json.obj
    ([(utf8Bytes "method", Json.str method),
      (utf8Bytes "path", Json.str path),
      (utf8Bytes "body", body)] ++
     (match resource_limits with
      | some rl => [(utf8Bytes "resource_limits", resourceLimitsToJson rl)]
      | none => [])))

/-- The decoded `gateway_signature` field: base64 decoding can fail, the
decoded bytes can have the wrong length, or they form a signature. -/
inductive SigBytes where
  | badBase64
  | wrongLength
  | sig (s : Ed25519Sig)
deriving DecidableEq, Repr

/-- The two request shapes `verify_gateway_auth` distinguishes: a body
without a `gateway_signature` field (direct), a well-formed
`GatewayAuthWrapper`, or a body with a `gateway_signature` field that
does not parse as a wrapper. -/
inductive RequestBody where
  | direct (body : Json)
  | wrapped (method path : List Nat) (body : Json)
      (resource_limits : Option ResourceLimits) (signature : SigBytes)
  | wrappedMalformed

/-- Embedding of `verify_gateway_auth`
(`crates/tee/src/infra/gateway_auth.rs`): with a configured relay key the
signature must be present, decode, and verify over the re-serialized
sign target; without one, wrappers are passed through unverified and
direct bodies are accepted.  Errors carry the HTTP status the source
returns (400 / 401 / 403). -/
def verify_gateway_auth (gateway_pubkey : Option Nat) (body : RequestBody) :
    Except Nat (Json × Option ResourceLimits) :=
  match body with
  | RequestBody.wrappedMalformed => Except.error 400
  | RequestBody.wrapped method path inner rl sigf =>
      match gateway_pubkey with
      | some pk =>
          match sigf with
          | SigBytes.badBase64 => Except.error 400
          | SigBytes.wrongLength => Except.error 400
          | SigBytes.sig s =>
              if ed25519_verify pk (signTargetBytes method path inner rl) s then
                Except.ok (inner, rl)
              else
                Except.error 403
      | none => Except.ok (inner, rl)
  | RequestBody.direct inner =>
      match gateway_pubkey with
      | some _ => Except.error 401
      | none => Except.ok (inner, none)

-- ===========================================================================
-- §6  Worker state machine and endpoint handlers
--     (crates/tee/src/endpoints/{create_tree.rs, verify/handler.rs,
--      sign/handler.rs}, crates/tee/src/config.rs)
-- ===========================================================================

/-- `TeeState` from `crates/tee/src/config.rs`: `Inactive` right after
boot, `Active` after `/create-tree`. -/
inductive TeeState where
  | inactive
  | active
deriving DecidableEq, Repr

/-- `TeeError` from `crates/tee/src/error.rs` (payload strings omitted). -/
inductive TeeError where
  | badRequest
  | internal
  | invalidState
  | conflict
  | payloadTooLarge
  | timeout
  | badGateway
  | processingFailed
  | forbidden
  | unauthorized
  | serviceUnavailable
deriving DecidableEq, Repr

/-- The HTTP status mapping of `impl IntoResponse for TeeError`. -/
def tee_error_status : TeeError → Nat
  | TeeError.badRequest => 400
  | TeeError.internal => 500
  | TeeError.invalidState => 503
  | TeeError.conflict => 409
  | TeeError.payloadTooLarge => 413
  | TeeError.timeout => 408
  | TeeError.badGateway => 502
  | TeeError.processingFailed => 422
  | TeeError.forbidden => 403
  | TeeError.unauthorized => 401
  | TeeError.serviceUnavailable => 503

/-- `CreateTreeRequest` from `crates/types/src/lib.rs`. -/
structure CreateTreeRequest where
  max_depth : Nat
  max_buffer_size : Nat
  recent_blockhash : List Nat
deriving DecidableEq, Repr

/-- Serde parse of a `CreateTreeRequest` from a JSON body: the three
fields must be present with the right types, the `u32` fields in range. -/
def parse_create_tree_request (body : Json) : Option CreateTreeRequest :=
  match jsonGet body (utf8Bytes "max_depth"),
      jsonGet body (utf8Bytes "max_buffer_size"),
      jsonGet body (utf8Bytes "recent_blockhash") with
  | some (Json.num d), some (Json.num b), some (Json.str h) =>
      if d < 4294967296 ∧ b < 4294967296 then some ⟨d, b, h⟩ else none
  | _, _, _ => none

/-- `CreateTreeResponse` from `crates/types/src/lib.rs` (raw bytes; the
Base64/Base58 presentation encodings are dropped). -/
structure CreateTreeResponse where
  signed_tx : List Nat
  tree_address : List Nat
  signing_pubkey : List Nat
  encryption_pubkey : List Nat
deriving DecidableEq, Repr

/-- Outcomes of the external collaborators `handle_create_tree` calls:
the Base58 decoder for the blockhash, the runtime's key material, and
the transaction build/sign/serialize steps (`solana_tx`). -/
structure CreateTreeEnv where
  base58_hash : List Nat → Option (List Nat)
  tree_pubkey : List Nat
  signing_pubkey : List Nat
  encryption_pubkey : List Nat
  tree_sig_apply_ok : Bool
  signing_sig_apply_ok : Bool
  serialized_tx : Option (List Nat)

/-- Embedding of `handle_create_tree`
(`crates/tee/src/endpoints/create_tree.rs`).  The handler checks the
`Inactive` state (conflict on a second call), parses the request, builds
and signs the tree transaction, stores the tree address, and flips the
state to `Active`.  It performs *no* relay authentication: the
`gateway_pubkey` argument (part of the shared `AppState`) is never
consulted, exactly as in the source.  Returns the handler result, the
worker state after the call, and the stored tree address after the
call. -/
def handle_create_tree (env : CreateTreeEnv) (gateway_pubkey : Option Nat)
    (st : TeeState) (tree_address : Option (List Nat)) (body : Json) :
    Except TeeError CreateTreeResponse × TeeState × Option (List Nat) :=
  -- inactive状態チェック（二重呼び出し防止）
  if st ≠ TeeState.inactive then
    (Except.error TeeError.conflict, st, tree_address)
  else
    match parse_create_tree_request body with
    | none => (Except.error TeeError.badRequest, st, tree_address)
    | some request =>
        match env.base58_hash request.recent_blockhash with
        | none => (Except.error TeeError.badRequest, st, tree_address)
        | some _blockhash =>
            if env.tree_pubkey.length ≠ 32 then
              (Except.error TeeError.internal, st, tree_address)
            else if env.signing_pubkey.length ≠ 32 then
              (Except.error TeeError.internal, st, tree_address)
            else if !env.tree_sig_apply_ok then
              (Except.error TeeError.internal, st, tree_address)
            else if !env.signing_sig_apply_ok then
              (Except.error TeeError.internal, st, tree_address)
            else
              match env.serialized_tx with
              | none => (Except.error TeeError.internal, st, tree_address)
              | some tx_bytes =>
                  -- Tree addressを保存; 状態遷移 inactive → active
                  (Except.ok ⟨tx_bytes, env.tree_pubkey, env.signing_pubkey,
                      env.encryption_pubkey⟩,
                    TeeState.active, some env.tree_pubkey)

/-- Embedding of `handle_verify`
(`crates/tee/src/endpoints/verify/handler.rs`): the `Active`-state check
comes first, then relay authentication (any authentication error is
mapped to `Unauthorized`), then the request pipeline (fetch, decrypt,
process, seal), abstracted as `pipeline` — which, as in the source,
never touches the worker state. -/
def handle_verify {α : Type}
    (pipeline : Json → Option ResourceLimits → Except TeeError α)
    (gateway_pubkey : Option Nat) (st : TeeState) (body : RequestBody) :
    Except TeeError α × TeeState :=
  -- active状態チェック
  if st ≠ TeeState.active then
    (Except.error TeeError.invalidState, st)
  else
    -- Step 1. Gateway署名の検証
    match verify_gateway_auth gateway_pubkey body with
    | Except.error _ => (Except.error TeeError.unauthorized, st)
    | Except.ok (inner_body, resource_limits) =>
        (pipeline inner_body resource_limits, st)

/-- Embedding of `handle_sign`
(`crates/tee/src/endpoints/sign/handler.rs`): same prefix as
`handle_verify` — `Active`-state check, then relay authentication, then
the per-item signing pipeline abstracted as `pipeline`. -/
def handle_sign {α : Type}
    (pipeline : Json → Option ResourceLimits → Except TeeError α)
    (gateway_pubkey : Option Nat) (st : TeeState) (body : RequestBody) :
    Except TeeError α × TeeState :=
  -- active状態チェック
  if st ≠ TeeState.active then
    (Except.error TeeError.invalidState, st)
  else
    match verify_gateway_auth gateway_pubkey body with
    | Except.error _ => (Except.error TeeError.unauthorized, st)
    | Except.ok (inner_body, resource_limits) =>
        (pipeline inner_body resource_limits, st)

/-- One inbound request to the worker; the verify/sign downstream
pipelines are abstract outcomes (they never touch the state flag in the
source). -/
inductive WorkerOp where
  | createTree (env : CreateTreeEnv) (body : Json)
  | verifyCall (body : RequestBody) (outcome : Except TeeError Unit)
  | signCall (body : RequestBody) (outcome : Except TeeError Unit)

/-- The state the handlers share: the `RwLock<TeeState>` flag and the
`RwLock<Option<[u8; 32]>>` tree address of `TeeAppState`. -/
structure WorkerState where
  state : TeeState
  tree_address : Option (List Nat)
deriving Repr

/-- One request processed against the shared state. -/
def worker_step (gateway_pubkey : Option Nat) (s : WorkerState)
    (op : WorkerOp) : WorkerState :=
  match op with
  | WorkerOp.createTree env body =>
      let r := handle_create_tree env gateway_pubkey s.state s.tree_address body
      ⟨r.2.1, r.2.2⟩
  | WorkerOp.verifyCall body outcome =>
      ⟨(handle_verify (fun _ _ => outcome) gateway_pubkey s.state body).2,
        s.tree_address⟩
  | WorkerOp.signCall body outcome =>
      ⟨(handle_sign (fun _ _ => outcome) gateway_pubkey s.state body).2,
        s.tree_address⟩

/-- A sequence of requests processed in order. -/
def worker_exec (gateway_pubkey : Option Nat) (s : WorkerState)
    (ops : List WorkerOp) : WorkerState :=
  ops.foldl (worker_step gateway_pubkey) s

/-- All external steps of `/create-tree` succeed: the Base58 decoder
accepts the blockhash, the runtime keys are 32 bytes, signature
application and serialization succeed. -/
def create_tree_env_ex : CreateTreeEnv :=
  { base58_hash := fun h => some h
    tree_pubkey := List.replicate 32 1
    signing_pubkey := List.replicate 32 2
    encryption_pubkey := List.replicate 32 3
    tree_sig_apply_ok := true
    signing_sig_apply_ok := true
    serialized_tx := some [9, 9] }

/-- A well-formed, *unsigned* `/create-tree` body (no `gateway_signature`
field anywhere). -/
def create_tree_body_ex : Json :=
  Json.obj
    [(utf8Bytes "max_depth", Json.num 20),
     (utf8Bytes "max_buffer_size", Json.num 64),
     (utf8Bytes "recent_blockhash",
       Json.str (utf8Bytes "11111111111111111111111111111111"))]

/-- C2 (refuted).  With a relay public key configured (`some 5`), an
unsigned `/create-tree` request is *not* rejected: the handler performs
no relay authentication and completes successfully, returning the signed
transaction and flipping the state to `Active`. -/
theorem create_tree_skips_relay_auth :
    handle_create_tree create_tree_env_ex (some 5) TeeState.inactive none
        create_tree_body_ex =
      (Except.ok ⟨[9, 9], List.replicate 32 1, List.replicate 32 2,
          List.replicate 32 3⟩,
        TeeState.active, some (List.replicate 32 1)) := by
  rfl

/-- C2 (amended).  `/verify` and `/sign` perform relay authentication
immediately after their `Active`-state check: with a relay key
configured, an unsigned (direct) request is rejected with 401, a wrapper
whose signature fails to decode with 400, a wrapper whose signature does
not verify over the re-serialized sign target with 403, and each such
authentication failure makes the handler return `Unauthorized` without
touching the state.  `/create-tree` performs no relay authentication at
all: its result does not depend on the configured relay key. -/
theorem relay_auth_on_verify_and_sign (k : Nat) :
    (∀ b, verify_gateway_auth (some k) (RequestBody.direct b) =
      Except.error 401) ∧
    (∀ m p b rl, verify_gateway_auth (some k)
      (RequestBody.wrapped m p b rl SigBytes.badBase64) = Except.error 400) ∧
    (∀ m p b rl, verify_gateway_auth (some k)
      (RequestBody.wrapped m p b rl SigBytes.wrongLength) = Except.error 400) ∧
    (∀ m p b rl s, ed25519_verify k (signTargetBytes m p b rl) s = false →
      verify_gateway_auth (some k)
        (RequestBody.wrapped m p b rl (SigBytes.sig s)) = Except.error 403) ∧
    (∀ (α : Type) (pipeline : Json → Option ResourceLimits →
        Except TeeError α) body e,
      verify_gateway_auth (some k) body = Except.error e →
      handle_verify pipeline (some k) TeeState.active body =
          (Except.error TeeError.unauthorized, TeeState.active) ∧
        handle_sign pipeline (some k) TeeState.active body =
          (Except.error TeeError.unauthorized, TeeState.active)) ∧
    (∀ env pk1 pk2 st ta body,
      handle_create_tree env pk1 st ta body =
        handle_create_tree env pk2 st ta body) := by
  refine ⟨fun b => rfl, fun m p b rl => rfl, fun m p b rl => rfl,
    ?_, ?_, fun env pk1 pk2 st ta body => rfl⟩
  · intro m p b rl s hv
    simp [verify_gateway_auth, hv]
  · intro α pipeline body e hv
    constructor
    · simp only [handle_verify, if_neg (by simp : ¬TeeState.active ≠ TeeState.active), hv]
    · simp only [handle_sign, if_neg (by simp : ¬TeeState.active ≠ TeeState.active), hv]

/-- Witness for C2's amended theorem at concrete inputs: relay key `0`,
a signature produced by keypair `1` (hence invalid for `0`), and an
unsigned request to `/verify`. -/
theorem relay_auth_on_verify_and_sign_witness :
    (verify_gateway_auth (some 0)
        (RequestBody.wrapped [] [] Json.null none
          (SigBytes.sig ⟨1, []⟩)) = Except.error 403) ∧
    (handle_verify (fun _ _ => Except.ok ()) (some 0) TeeState.active
        (RequestBody.direct Json.null) =
      (Except.error TeeError.unauthorized, TeeState.active)) := by
  have T := relay_auth_on_verify_and_sign 0
  exact ⟨T.2.2.2.1 [] [] Json.null none ⟨1, []⟩ rfl,
    (T.2.2.2.2.1 Unit (fun _ _ => Except.ok ()) (RequestBody.direct Json.null)
      401 rfl).1⟩


theorem handle_verify_state (α : Type)
    (pipeline : Json → Option ResourceLimits → Except TeeError α)
    (gpk : Option Nat) (st : TeeState) (body : RequestBody) :
    (handle_verify pipeline gpk st body).2 = st := by
  unfold handle_verify
  split_ifs with h
  · rfl
  · rcases hv : verify_gateway_auth gpk body with e | ⟨inner, rl⟩ <;> simp [hv]

theorem handle_sign_state (α : Type)
    (pipeline : Json → Option ResourceLimits → Except TeeError α)
    (gpk : Option Nat) (st : TeeState) (body : RequestBody) :
    (handle_sign pipeline gpk st body).2 = st := by
  unfold handle_sign
  split_ifs with h
  · rfl
  · rcases hv : verify_gateway_auth gpk body with e | ⟨inner, rl⟩ <;> simp [hv]

theorem handle_create_tree_ok (env : CreateTreeEnv) (gpk : Option Nat)
    (ta : Option (List Nat)) (body : Json) (resp : CreateTreeResponse)
    (st2 : TeeState) (ta2 : Option (List Nat))
    (h : handle_create_tree env gpk TeeState.inactive ta body =
      (Except.ok resp, st2, ta2)) :
    st2 = TeeState.active ∧ ta2 = some env.tree_pubkey := by
  unfold handle_create_tree at h
  rw [if_neg (by simp)] at h
  repeat' split at h
  all_goals simp_all

theorem handle_create_tree_err (env : CreateTreeEnv) (gpk : Option Nat)
    (ta : Option (List Nat)) (body : Json) (e : TeeError)
    (st2 : TeeState) (ta2 : Option (List Nat))
    (h : handle_create_tree env gpk TeeState.inactive ta body =
      (Except.error e, st2, ta2)) :
    st2 = TeeState.inactive ∧ ta2 = ta := by
  unfold handle_create_tree at h
  rw [if_neg (by simp)] at h
  repeat' split at h
  all_goals simp_all

theorem worker_step_preserves_active (gpk : Option Nat) (s : WorkerState)
    (op : WorkerOp) (h : s.state = TeeState.active) :
    (worker_step gpk s op).state = TeeState.active := by
  rcases op with ⟨env, body⟩ | ⟨body, outcome⟩ | ⟨body, outcome⟩
  · simp only [worker_step, h, handle_create_tree]
    rfl
  · simpa [worker_step] using (handle_verify_state _ _ gpk s.state body).trans h
  · simpa [worker_step] using (handle_sign_state _ _ gpk s.state body).trans h

/-- C7.  The worker state is two-valued (`Inactive`/`Active`); `verify`
and `sign` never change it and are rejected while `Inactive`; a second
`create-ledger-state` call in `Active` fails with a conflict and changes
nothing; from `Inactive` the state flips to `Active` (and the tree
address is recorded) exactly on a successful `create-ledger-state`, and
stays `Inactive` on any failure; and no sequence of requests ever takes
an `Active` worker back to `Inactive`. -/
theorem worker_state_machine_correct (gpk : Option Nat) :
    (∀ s : TeeState, s = TeeState.inactive ∨ s = TeeState.active) ∧
    (∀ (α : Type) (pipeline : Json → Option ResourceLimits →
        Except TeeError α) st body,
      (handle_verify pipeline gpk st body).2 = st ∧
      (handle_sign pipeline gpk st body).2 = st) ∧
    (∀ (α : Type) (pipeline : Json → Option ResourceLimits →
        Except TeeError α) body,
      handle_verify pipeline gpk TeeState.inactive body =
          (Except.error TeeError.invalidState, TeeState.inactive) ∧
        handle_sign pipeline gpk TeeState.inactive body =
          (Except.error TeeError.invalidState, TeeState.inactive)) ∧
    (∀ env ta body,
      handle_create_tree env gpk TeeState.active ta body =
        (Except.error TeeError.conflict, TeeState.active, ta)) ∧
    (∀ env ta body resp st2 ta2,
      handle_create_tree env gpk TeeState.inactive ta body =
        (Except.ok resp, st2, ta2) →
      st2 = TeeState.active ∧ ta2 = some env.tree_pubkey) ∧
    (∀ env ta body e st2 ta2,
      handle_create_tree env gpk TeeState.inactive ta body =
        (Except.error e, st2, ta2) →
      st2 = TeeState.inactive ∧ ta2 = ta) ∧
    (∀ s ops, s.state = TeeState.active →
      (worker_exec gpk s ops).state = TeeState.active) := by
  refine ⟨fun s => by cases s <;> simp,
    fun α pipeline st body =>
      ⟨handle_verify_state α pipeline gpk st body,
        handle_sign_state α pipeline gpk st body⟩,
    fun α pipeline body => ⟨rfl, rfl⟩,
    fun env ta body => rfl,
    fun env ta body resp st2 ta2 h =>
      handle_create_tree_ok env gpk ta body resp st2 ta2 h,
    fun env ta body e st2 ta2 h =>
      handle_create_tree_err env gpk ta body e st2 ta2 h,
    ?_⟩
  intro s ops h
  induction ops generalizing s with
  | nil => exact h
  | cons op rest ih =>
      exact ih (worker_step gpk s op) (worker_step_preserves_active gpk s op h)

/-- Witness for C7 at a concrete input: a successful `create-ledger-state`
from `Inactive` leaves the worker `Active`, and an already-`Active`
worker stays `Active` across a request sequence. -/
theorem worker_state_machine_correct_witness :
    (TeeState.active = TeeState.active ∧
      some (List.replicate 32 1) = some (create_tree_env_ex.tree_pubkey)) ∧
    (worker_exec (some 5) ⟨TeeState.active, none⟩ []).state =
      TeeState.active := by
  have T := worker_state_machine_correct (some 5)
  exact ⟨T.2.2.2.2.1 create_tree_env_ex none create_tree_body_ex
      ⟨[9, 9], List.replicate 32 1, List.replicate 32 2, List.replicate 32 3⟩
      TeeState.active (some (List.replicate 32 1))
      create_tree_skips_relay_auth,
    T.2.2.2.2.2.2 ⟨TeeState.active, none⟩ [] rfl⟩

-- ===========================================================================
-- §7  Attestation signing and re-verification
--     (crates/tee/src/endpoints/verify/core.rs, sign/handler.rs)
-- ===========================================================================

/-- `Attribute` from `crates/types/src/lib.rs`. -/
structure Attribute where
  trait_type : List Nat
  value : List Nat
deriving DecidableEq, Repr

/-- `serde_json::to_value` of an `Attribute` (a `Value` object holds its
keys sorted; `trait_type` < `value` alphabetically). -/
def attributeToJson (a : Attribute) : Json :=
  Json.obj
    [(utf8Bytes "trait_type", Json.str a.trait_type),
     (utf8Bytes "value", Json.str a.value)]

/-- The sign target `process_core` builds
(`crates/tee/src/endpoints/verify/core.rs`, lines 75-78):
`json!({"payload": payload_value, "attributes": attributes_value})`.
The `json!` macro produces a map-backed `Value`, so the serialized
object carries `attributes` before `payload` (sorted key order). -/
def process_core_sign_target (payload_value : Json)
    (attributes : List Attribute) : Json :=
  Json.obj
    [(utf8Bytes "attributes", Json.arr (attributes.map attributeToJson)),
     (utf8Bytes "payload", payload_value)]

/-- The byte string `process_core` signs:
`serde_json::to_vec(&sign_target)`. -/
def process_core_sign_bytes (payload_value : Json)
    (attributes : List Attribute) : List Nat :=
  renderJson (process_core_sign_target payload_value attributes)

/-- The signed attestation (`SignedJson` in `crates/types/src/lib.rs`,
restricted to the fields the `/sign` check uses: the signing key, the
signature, the payload and the attributes). -/
structure SignedJson where
  tee_pubkey : Nat
  tee_signature : Ed25519Sig
  payload : Json
  attributes : List Attribute

/-- `process_core`'s signing step: sign the canonical serialization of
`{payload, attributes}` with the worker's signing key and assemble the
attestation. -/
def process_core_model (sk : Nat) (payload_value : Json)
    (attributes : List Attribute) : SignedJson :=
  let sign_bytes := process_core_sign_bytes payload_value attributes
  { tee_pubkey := sk
    tee_signature := ed25519_sign sk sign_bytes
    payload := payload_value
    attributes := attributes }

/-- The byte string `handle_sign` reconstructs for verification
(`crates/tee/src/endpoints/sign/handler.rs`, lines 112-118):
`json!({"payload": signed_json.payload, "attributes":
signed_json.attributes})`, re-serialized. -/
def handle_sign_verify_bytes (sj : SignedJson) : List Nat :=
  renderJson (Json.obj
    [(utf8Bytes "attributes", Json.arr (sj.attributes.map attributeToJson)),
     (utf8Bytes "payload", sj.payload)])

/-- `handle_sign`'s per-item signature check: verify the decoded
`tee_signature` over the reconstructed bytes against the worker's
*current* signing public key; mismatch is `Forbidden`. -/
def handle_sign_item_check (current_pk : Nat) (sj : SignedJson) :
    Except TeeError Unit :=
  if ed25519_verify current_pk (handle_sign_verify_bytes sj)
      sj.tee_signature then
    Except.ok ()
  else
    Except.error TeeError.forbidden

/-- C6.  The byte string `process_core` signs equals the byte string
`handle_sign` reconstructs for verification, so an attestation emitted by
the worker passes `handle_sign`'s check against the same worker's current
signing key, and fails it against any other (rotated) key. -/
theorem attestation_sign_verify_roundtrip (pk : Nat) (payload_value : Json)
    (attributes : List Attribute) :
    (handle_sign_verify_bytes (process_core_model pk payload_value attributes) =
      process_core_sign_bytes payload_value attributes) ∧
    handle_sign_item_check pk (process_core_model pk payload_value attributes) =
      Except.ok () ∧
    (∀ pk2, pk2 ≠ pk →
      handle_sign_item_check pk2
        (process_core_model pk payload_value attributes) =
      Except.error TeeError.forbidden) := by
  refine ⟨rfl, ?_, ?_⟩
  · simp [handle_sign_item_check, handle_sign_verify_bytes, process_core_model,
      ed25519_verify, ed25519_sign, process_core_sign_bytes,
      process_core_sign_target]
  · intro pk2 hne
    simp only [handle_sign_item_check, handle_sign_verify_bytes,
      process_core_model, ed25519_verify, ed25519_sign, process_core_sign_bytes,
      process_core_sign_target, ite_eq_right_iff]
    intro hcond
    exfalso
    simp only [Bool.and_eq_true, beq_iff_eq] at hcond
    exact hne (hcond.1.symm)

/-- Witness for C6 at a concrete input: worker key `0`, rotated key `1`,
empty payload and attribute list. -/
theorem attestation_sign_verify_roundtrip_witness :
    handle_sign_item_check 0 (process_core_model 0 Json.null []) =
        Except.ok () ∧
    handle_sign_item_check 1 (process_core_model 0 Json.null []) =
        Except.error TeeError.forbidden := by
  have T := attestation_sign_verify_roundtrip 0 Json.null []
  exact ⟨T.2.1, T.2.2 1 (by decide)⟩

-- ===========================================================================
-- §8  Provenance graph construction (crates/core/src/lib.rs,
--     build_provenance_graph / process_ingredients)
-- ===========================================================================

/-- `CoreError` from `crates/core/src/lib.rs` (message strings omitted). -/
inductive CoreError where
  | c2paVerificationFailed
  | contentHashExtractionFailed
  | graphBuildFailed
  | graphSizeExceeded (nodes_and_links max : Nat)
deriving DecidableEq, Repr

/-- `MAX_SIGNATURE_SIZE` from `crates/core/src/lib.rs`: 16 MiB. -/
def MAX_SIGNATURE_SIZE : Nat := 16 * 1024 * 1024

/-- `MAX_INGREDIENT_DEPTH` from `crates/core/src/lib.rs`. -/
def MAX_INGREDIENT_DEPTH : Nat := 32

/-- `GraphNode` from `crates/types/src/lib.rs` (`node_type` is the field
serde renames to `type`). -/
structure GraphNode where
  id : List Nat
  node_type : List Nat
deriving DecidableEq, Repr

/-- `GraphLink` from `crates/types/src/lib.rs`. -/
structure GraphLink where
  source : List Nat
  target : List Nat
  role : List Nat
deriving DecidableEq, Repr

/-- `ProvenanceGraph` from `crates/core/src/lib.rs`. -/
structure ProvenanceGraph where
  nodes : List GraphNode
  links : List GraphLink
deriving DecidableEq, Repr

/-- Two lowercase hex digits of a byte (`format!("{b:02x}")`). -/
def hexByte (b : Nat) : List Nat :=
  [hexDigitByte (b / 16), hexDigitByte (b % 16)]

/-- `format_content_hash` from `crates/core/src/lib.rs`: `0x` + lowercase
hex of the 32 hash bytes. -/
def format_content_hash (hash : List Nat) : List Nat :=
  [48, 120] ++ hash.flatMap hexByte

/-- One C2PA ingredient as the walk sees it: its declared media type
(`Ingredient::format`) and the label of its embedded manifest
(`Ingredient::active_manifest`), when it has one. -/
structure Ingredient where
  format : Option (List Nat)
  active_manifest : Option (List Nat)

/-- A manifest as the walk sees it: its ingredient list
(`Manifest::ingredients`). -/
structure Manifest where
  ingredients : List Ingredient

/-- The c2pa reader and JUMBF image, abstracted: the active manifest
label, the manifest store (`Reader::get_manifest` = association-list
lookup), and the result of `extract_signature_from_jumbf` on the shared
JUMBF data for each label (absent = extraction error for that label). -/
structure ReaderModel where
  active_label : List Nat
  manifests : List (List Nat × Manifest)
  sigs : List (List Nat × List Nat)

/-- `ingredient_role` from `crates/core/src/lib.rs`: the declared media
type, with fallback `"unknown"`. -/
def ingredient_role (ingredient : Ingredient) : List Nat :=
  ingredient.format.getD (utf8Bytes "unknown")

/-- The ingredient loop body of `process_ingredients`
(`crates/core/src/lib.rs`, lines 408-455): for each ingredient, skip it
unless it names an embedded manifest whose signature extracts; derive
its content hash, insert the `"ingredient"` node (deduplicated on id),
push the edge `ingredient → parent`, and recurse into its manifest when
the store has it.  The recursion into a nested manifest is taken as the
function argument `recurse`. -/
def process_ingredient_list (reader : ReaderModel)
    (hashFn : List Nat → List Nat)
    (recurse : Manifest → List Nat → List GraphNode → List GraphLink →
      Except CoreError (List GraphNode × List GraphLink)) :
    List Ingredient → List Nat → List GraphNode → List GraphLink →
    Except CoreError (List GraphNode × List GraphLink)
  | [], _, nodes, links => Except.ok (nodes, links)
  | ingredient :: rest, parent_hash_str, nodes, links =>
      let role := ingredient_role ingredient
      match ingredient.active_manifest with
      | none =>
          process_ingredient_list reader hashFn recurse rest parent_hash_str
            nodes links
      | some ingredient_label =>
          match reader.sigs.lookup ingredient_label with
          | none =>
              process_ingredient_list reader hashFn recurse rest
                parent_hash_str nodes links
          | some sig =>
              let hash_str := format_content_hash (hashFn sig)
              let nodes' :=
                if nodes.any (fun n => n.id == hash_str) then nodes
                else nodes ++ [⟨hash_str, utf8Bytes "ingredient"⟩]
              let links' := links ++ [⟨hash_str, parent_hash_str, role⟩]
              match reader.manifests.lookup ingredient_label with
              | some nested_manifest =>
                  match recurse nested_manifest hash_str nodes' links' with
                  | Except.error e => Except.error e
                  | Except.ok (nodes2, links2) =>
                      process_ingredient_list reader hashFn recurse rest
                        parent_hash_str nodes2 links2
              | none =>
                  process_ingredient_list reader hashFn recurse rest
                    parent_hash_str nodes' links'

/-- `process_ingredients` with the recursion depth re-indexed as a
remaining budget: the source checks `depth > MAX_INGREDIENT_DEPTH` at
entry and recurses with `depth + 1`; with
`budget = MAX_INGREDIENT_DEPTH + 1 - depth` the entry check is
`budget = 0` and the recursion passes `budget - 1`, giving the same
results at every reachable depth (and, like the source, an error for
every depth beyond the cap). -/
def process_ingredients_go (reader : ReaderModel)
    (hashFn : List Nat → List Nat) :
    Nat → Manifest → List Nat → List GraphNode → List GraphLink →
    Except CoreError (List GraphNode × List GraphLink)
  | 0, _, _, _, _ => Except.error CoreError.graphBuildFailed
  | budget + 1, manifest, parent_hash_str, nodes, links =>
      process_ingredient_list reader hashFn
        (fun m p n l => process_ingredients_go reader hashFn budget m p n l)
        manifest.ingredients parent_hash_str nodes links

/-- Embedding of `process_ingredients` (depth-indexed interface). -/
def process_ingredients (reader : ReaderModel)
    (hashFn : List Nat → List Nat) (manifest : Manifest)
    (parent_hash_str : List Nat) (nodes : List GraphNode)
    (links : List GraphLink) (depth : Nat) :
    Except CoreError (List GraphNode × List GraphLink) :=
  process_ingredients_go reader hashFn (MAX_INGREDIENT_DEPTH + 1 - depth)
    manifest parent_hash_str nodes links

/-- Embedding of `build_provenance_graph` from `crates/core/src/lib.rs`:
resolve the active manifest and its signature, insert the root node with
kind `"final"`, walk the ingredients from depth 0, then check
`|nodes| + |links|` against the ceiling.  `hashFn` is the external
SHA-256 (`content_hash_from_manifest_signature`). -/
def build_provenance_graph (reader : ReaderModel)
    (hashFn : List Nat → List Nat) (max_graph_size : Nat) :
    Except CoreError ProvenanceGraph :=
  match reader.manifests.lookup reader.active_label with
  | none => Except.error CoreError.graphBuildFailed
  | some manifest =>
      match reader.sigs.lookup reader.active_label with
      | none => Except.error CoreError.contentHashExtractionFailed
      | some root_sig =>
          let root_hash_str := format_content_hash (hashFn root_sig)
          let nodes : List GraphNode := [⟨root_hash_str, utf8Bytes "final"⟩]
          let links : List GraphLink := []
          match process_ingredients reader hashFn manifest root_hash_str
              nodes links 0 with
          | Except.error e => Except.error e
          | Except.ok (nodes, links) =>
              let total := nodes.length + links.length
              if total > max_graph_size then
                Except.error (CoreError.graphSizeExceeded total max_graph_size)
              else
                Except.ok ⟨nodes, links⟩

/-- A linear ingredient chain: labels `[0], [1], …, [n]`, where `[k]`
declares `[k+1]` as its one ingredient for `k < n`; every label has a
distinct signature.  The deepest node sits at recursion depth `n` from
the root. -/
def chain_reader (n : Nat) : ReaderModel :=
  { active_label := [0]
    manifests := (List.range (n + 1)).map (fun i =>
      ([i], ⟨if i < n then [⟨none, some [i + 1]⟩] else []⟩))
    sigs := (List.range (n + 1)).map (fun i => ([i], [i])) }

/-- C4.  The ingredient walk succeeds on a chain whose deepest node is at
recursion depth exactly 32 from the root, and fails with
`GraphBuildFailed` — no graph is returned — on a chain whose deepest
node is at depth 33. -/
theorem graph_depth_limit :
    (build_provenance_graph (chain_reader 32) id 10000).isOk = true ∧
    build_provenance_graph (chain_reader 33) id 10000 =
      Except.error CoreError.graphBuildFailed := by
  constructor
  · rfl
  · rfl

/-- A directed path along graph links (each step follows one link from
its `source` to its `target`). -/
inductive LinkPath (links : List GraphLink) : List Nat → List Nat → Prop where
  | refl (a : List Nat) : LinkPath links a a
  | step {a b c : List Nat} (l : GraphLink) (hl : l ∈ links)
      (hs : l.source = a) (ht : l.target = b) (hp : LinkPath links b c) :
      LinkPath links a c

/-- A cycle in the edge set: some link closes back on its own source. -/
def HasCycle (links : List GraphLink) : Prop :=
  ∃ l ∈ links, LinkPath links l.target l.source

theorem linkpath_mono {links links' : List GraphLink}
    (hsub : links ⊆ links') {a b : List Nat} (h : LinkPath links a b) :
    LinkPath links' a b := by
  induction h with
  | refl a => exact LinkPath.refl a
  | step l hl hs ht hp ih => exact LinkPath.step l (hsub hl) hs ht ih

/-- The invariant the walk maintains: every link endpoint is a node id,
every node has a path to the root, and exactly one node is `"final"`. -/
def GraphInv (root : List Nat) (nodes : List GraphNode)
    (links : List GraphLink) : Prop :=
  (∀ l ∈ links, (∃ n ∈ nodes, n.id = l.source) ∧
    (∃ n ∈ nodes, n.id = l.target)) ∧
  (∀ n ∈ nodes, LinkPath links n.id root) ∧
  nodes.countP (fun n => n.node_type == utf8Bytes "final") = 1

/-- The parent the walk hangs new edges on is itself a recorded node
with a path to the root. -/
def ParentOk (root parent : List Nat) (nodes : List GraphNode)
    (links : List GraphLink) : Prop :=
  (∃ n ∈ nodes, n.id = parent) ∧ LinkPath links parent root

theorem graphinv_mono_links (root : List Nat) (nodes : List GraphNode)
    (links links' : List GraphLink) (hsub : links ⊆ links')
    (hend : ∀ l ∈ links', (∃ n ∈ nodes, n.id = l.source) ∧
      (∃ n ∈ nodes, n.id = l.target))
    (h : GraphInv root nodes links) : GraphInv root nodes links' :=
  ⟨hend, fun n hn => linkpath_mono hsub (h.2.1 n hn), h.2.2⟩

/-- Effect of one loop-body insertion (dedup node insert plus edge push)
on the invariant. -/
theorem insert_step_inv (root parent hash_str role : List Nat)
    (nodes : List GraphNode) (links : List GraphLink)
    (hinv : GraphInv root nodes links)
    (hpar : ParentOk root parent nodes links) :
    GraphInv root
      (if nodes.any (fun n => n.id == hash_str) then nodes
        else nodes ++ [⟨hash_str, utf8Bytes "ingredient"⟩])
      (links ++ [⟨hash_str, parent, role⟩]) ∧
    ParentOk root hash_str
      (if nodes.any (fun n => n.id == hash_str) then nodes
        else nodes ++ [⟨hash_str, utf8Bytes "ingredient"⟩])
      (links ++ [⟨hash_str, parent, role⟩]) ∧
    nodes ⊆ (if nodes.any (fun n => n.id == hash_str) then nodes
      else nodes ++ [⟨hash_str, utf8Bytes "ingredient"⟩]) ∧
    links ⊆ links ++ [⟨hash_str, parent, role⟩] := by
  have hlsub : links ⊆ links ++ [⟨hash_str, parent, role⟩] :=
    List.subset_append_left _ _
  by_cases hmem : nodes.any (fun n => n.id == hash_str)
  · have hex : ∃ n ∈ nodes, n.id = hash_str := by
      rcases List.any_eq_true.mp hmem with ⟨n, hn, hb⟩
      exact ⟨n, hn, by simpa using hb⟩
    rw [if_pos hmem]
    refine ⟨⟨?_, ?_, hinv.2.2⟩, ⟨hex, ?_⟩, List.Subset.refl _, hlsub⟩
    · intro l hl
      rcases List.mem_append.mp hl with hold | hnew
      · exact hinv.1 l hold
      · simp only [List.mem_singleton] at hnew
        subst hnew
        exact ⟨hex, hpar.1⟩
    · intro n hn
      exact linkpath_mono hlsub (hinv.2.1 n hn)
    · exact LinkPath.step ⟨hash_str, parent, role⟩
        (List.mem_append_right _ (by simp)) rfl rfl
        (linkpath_mono hlsub hpar.2)
  · rw [if_neg hmem]
    have hnsub : nodes ⊆ nodes ++ [⟨hash_str, utf8Bytes "ingredient"⟩] :=
      List.subset_append_left _ _
    have hmemnew : (⟨hash_str, utf8Bytes "ingredient"⟩ : GraphNode) ∈
        nodes ++ [⟨hash_str, utf8Bytes "ingredient"⟩] :=
      List.mem_append_right _ (by simp)
    have hpath : LinkPath (links ++ [⟨hash_str, parent, role⟩]) hash_str root :=
      LinkPath.step ⟨hash_str, parent, role⟩
        (List.mem_append_right _ (by simp)) rfl rfl
        (linkpath_mono hlsub hpar.2)
    refine ⟨⟨?_, ?_, ?_⟩, ⟨⟨_, hmemnew, rfl⟩, hpath⟩, hnsub, hlsub⟩
    · intro l hl
      rcases List.mem_append.mp hl with hold | hnew
      · rcases hinv.1 l hold with ⟨⟨n1, hn1, he1⟩, ⟨n2, hn2, he2⟩⟩
        exact ⟨⟨n1, hnsub hn1, he1⟩, ⟨n2, hnsub hn2, he2⟩⟩
      · simp only [List.mem_singleton] at hnew
        subst hnew
        rcases hpar.1 with ⟨n2, hn2, he2⟩
        exact ⟨⟨_, hmemnew, rfl⟩, ⟨n2, hnsub hn2, he2⟩⟩
    · intro n hn
      rcases List.mem_append.mp hn with hold | hnew
      · exact linkpath_mono hlsub (hinv.2.1 n hold)
      · simp only [List.mem_singleton] at hnew
        subst hnew
        exact hpath
    · rw [List.countP_append]
      have : List.countP (fun n => n.node_type == utf8Bytes "final")
          [(⟨hash_str, utf8Bytes "ingredient"⟩ : GraphNode)] = 0 := by
        simp [List.countP, List.countP.go]
        decide
      rw [this, hinv.2.2]

theorem process_ingredient_list_inv (reader : ReaderModel)
    (hashFn : List Nat → List Nat) (root : List Nat)
    (recurse : Manifest → List Nat → List GraphNode → List GraphLink →
      Except CoreError (List GraphNode × List GraphLink))
    (hrec : ∀ m p n l res, recurse m p n l = Except.ok res →
      GraphInv root n l → ParentOk root p n l →
      GraphInv root res.1 res.2 ∧ n ⊆ res.1 ∧ l ⊆ res.2) :
    ∀ ings parent nodes links res,
      process_ingredient_list reader hashFn recurse ings parent nodes links =
        Except.ok res →
      GraphInv root nodes links → ParentOk root parent nodes links →
      GraphInv root res.1 res.2 ∧ nodes ⊆ res.1 ∧ links ⊆ res.2 := by
  intro ings
  induction ings with
  | nil =>
      intro parent nodes links res h hinv hpar
      simp only [process_ingredient_list, Except.ok.injEq] at h
      rw [← h]
      exact ⟨hinv, List.Subset.refl _, List.Subset.refl _⟩
  | cons ingredient rest ih =>
      intro parent nodes links res h hinv hpar
      simp only [process_ingredient_list] at h
      rcases ham : ingredient.active_manifest with _ | label <;>
        simp only [ham] at h
      · exact ih parent nodes links res h hinv hpar
      · rcases hsig : reader.sigs.lookup label with _ | sig <;>
          simp only [hsig] at h
        · exact ih parent nodes links res h hinv hpar
        · have hstep := insert_step_inv root parent
            (format_content_hash (hashFn sig)) (ingredient_role ingredient)
            nodes links hinv hpar
          rcases hman : reader.manifests.lookup label with _ | nested <;>
            simp only [hman] at h
          · have hpar' : ParentOk root parent _ _ :=
              ⟨by
                rcases hpar.1 with ⟨n, hn, he⟩
                exact ⟨n, hstep.2.2.1 hn, he⟩,
               linkpath_mono hstep.2.2.2 hpar.2⟩
            rcases ih parent _ _ res h hstep.1 hpar' with ⟨hi, hs1, hs2⟩
            exact ⟨hi, fun a haa => hs1 (hstep.2.2.1 haa),
              fun a haa => hs2 (hstep.2.2.2 haa)⟩
          · rcases hr : recurse nested
                (format_content_hash (hashFn sig))
                (if nodes.any (fun n => n.id ==
                    format_content_hash (hashFn sig)) then nodes
                  else nodes ++ [⟨format_content_hash (hashFn sig),
                    utf8Bytes "ingredient"⟩])
                (links ++ [⟨format_content_hash (hashFn sig), parent,
                  ingredient_role ingredient⟩]) with e | res2
            · simp only [hr] at h
              simp at h
            · simp only [hr] at h
              rcases hrec _ _ _ _ res2 hr hstep.1 hstep.2.1 with ⟨hi2, hs1, hs2⟩
              have hpar2 : ParentOk root parent res2.1 res2.2 :=
                ⟨by
                  rcases hpar.1 with ⟨n, hn, he⟩
                  exact ⟨n, hs1 (hstep.2.2.1 hn), he⟩,
                 linkpath_mono hs2 (linkpath_mono hstep.2.2.2 hpar.2)⟩
              rcases ih parent res2.1 res2.2 res h hi2 hpar2 with ⟨hi3, ht1, ht2⟩
              exact ⟨hi3,
                fun a haa => ht1 (hs1 (hstep.2.2.1 haa)),
                fun a haa => ht2 (hs2 (hstep.2.2.2 haa))⟩

theorem process_ingredients_go_inv (reader : ReaderModel)
    (hashFn : List Nat → List Nat) (root : List Nat) :
    ∀ budget m parent nodes links res,
      process_ingredients_go reader hashFn budget m parent nodes links =
        Except.ok res →
      GraphInv root nodes links → ParentOk root parent nodes links →
      GraphInv root res.1 res.2 ∧ nodes ⊆ res.1 ∧ links ⊆ res.2 := by
  intro budget
  induction budget with
  | zero =>
      intro m parent nodes links res h
      simp only [process_ingredients_go] at h
      simp at h
  | succ b ih =>
      intro m parent nodes links res h hinv hpar
      simp only [process_ingredients_go] at h
      exact process_ingredient_list_inv reader hashFn root _
        (fun m2 p2 n2 l2 res2 h2 => ih m2 p2 n2 l2 res2 h2)
        m.ingredients parent nodes links res h hinv hpar

/-- C3 (amended).  Whenever `build_provenance_graph` returns a graph:
every edge endpoint is the id of a node in the node set, exactly one
node has kind `"final"`, and every node lies on a directed path of edges
(oriented ingredient → derivative) ending at the root. -/
theorem build_graph_invariants (reader : ReaderModel)
    (hashFn : List Nat → List Nat) (max_graph_size : Nat)
    (g : ProvenanceGraph)
    (h : build_provenance_graph reader hashFn max_graph_size = Except.ok g) :
    (∀ l ∈ g.links, (∃ n ∈ g.nodes, n.id = l.source) ∧
      (∃ n ∈ g.nodes, n.id = l.target)) ∧
    g.nodes.countP (fun n => n.node_type == utf8Bytes "final") = 1 ∧
    ∃ root ∈ g.nodes, root.node_type = utf8Bytes "final" ∧
      ∀ n ∈ g.nodes, LinkPath g.links n.id root.id := by
  unfold build_provenance_graph at h
  rcases hm : reader.manifests.lookup reader.active_label with _ | manifest
  · rw [hm] at h
    simp at h
  rw [hm] at h
  rcases hsg : reader.sigs.lookup reader.active_label with _ | root_sig
  · rw [hsg] at h
    simp at h
  rw [hsg] at h
  simp only [] at h
  rcases hp : process_ingredients reader hashFn manifest
      (format_content_hash (hashFn root_sig))
      [⟨format_content_hash (hashFn root_sig), utf8Bytes "final"⟩] [] 0
    with e | res
  · rw [hp] at h
    simp at h
  obtain ⟨ns, ls⟩ := res
  rw [hp] at h
  dsimp only at h
  split_ifs at h with hsize
  simp only [Except.ok.injEq] at h
  have hroot_mem : (⟨format_content_hash (hashFn root_sig),
      utf8Bytes "final"⟩ : GraphNode) ∈
      [(⟨format_content_hash (hashFn root_sig), utf8Bytes "final"⟩ :
        GraphNode)] := by simp
  have hinv0 : GraphInv (format_content_hash (hashFn root_sig))
      [⟨format_content_hash (hashFn root_sig), utf8Bytes "final"⟩] [] := by
    refine ⟨fun l hl => absurd hl (by simp), ?_, ?_⟩
    · intro n hn
      simp only [List.mem_singleton] at hn
      subst hn
      exact LinkPath.refl _
    · simp [List.countP_cons]
  have hpar0 : ParentOk (format_content_hash (hashFn root_sig))
      (format_content_hash (hashFn root_sig))
      [⟨format_content_hash (hashFn root_sig), utf8Bytes "final"⟩] [] :=
    ⟨⟨_, hroot_mem, rfl⟩, LinkPath.refl _⟩
  have hgo := process_ingredients_go_inv reader hashFn
    (format_content_hash (hashFn root_sig)) _ _ _ _ _ _
    (by simpa only [process_ingredients] using hp) hinv0 hpar0
  rcases hgo with ⟨⟨hend, hpaths, hcount⟩, hsub1, _hsub2⟩
  rw [← h]
  refine ⟨hend, hcount, ⟨_, hsub1 hroot_mem, rfl, hpaths⟩⟩

/-- A store whose root manifest declares one ingredient under another
label that carries the *same* signature bytes as the root manifest: the
ingredient's content hash collides with the root's, so the walk pushes
the edge `root → root`. -/
def selfloop_reader : ReaderModel :=
  { active_label := [0]
    manifests := [([0], ⟨[⟨some (utf8Bytes "image/jpeg"), some [1]⟩]⟩),
                  ([1], ⟨[]⟩)]
    sigs := [([0], [7]), ([1], [7])] }

/-- C3 (refuted as stated).  `build_provenance_graph` returns `Ok` on a
container whose ingredient manifest carries the same signature bytes as
the root manifest, and the resulting edge set contains a cycle (a
self-loop on the root). -/
theorem build_graph_cycle_counterexample :
    build_provenance_graph selfloop_reader id 10000 =
      Except.ok ⟨[⟨format_content_hash [7], utf8Bytes "final"⟩],
        [⟨format_content_hash [7], format_content_hash [7],
          utf8Bytes "image/jpeg"⟩]⟩ ∧
    HasCycle [⟨format_content_hash [7], format_content_hash [7],
      utf8Bytes "image/jpeg"⟩] := by
  constructor
  · rfl
  · exact ⟨⟨format_content_hash [7], format_content_hash [7],
      utf8Bytes "image/jpeg"⟩, by simp, LinkPath.refl _⟩

/-- Witness for C3's amended theorem: the one-node clean-provenance
graph of `chain_reader 0`. -/
theorem build_graph_invariants_witness :
    (∀ l ∈ (ProvenanceGraph.mk
        [⟨format_content_hash [0], utf8Bytes "final"⟩] []).links,
      (∃ n ∈ (ProvenanceGraph.mk
        [⟨format_content_hash [0], utf8Bytes "final"⟩] []).nodes,
          n.id = l.source) ∧
      (∃ n ∈ (ProvenanceGraph.mk
        [⟨format_content_hash [0], utf8Bytes "final"⟩] []).nodes,
          n.id = l.target)) ∧
    (ProvenanceGraph.mk [⟨format_content_hash [0], utf8Bytes "final"⟩]
        []).nodes.countP (fun n => n.node_type == utf8Bytes "final") = 1 ∧
    ∃ root ∈ (ProvenanceGraph.mk
        [⟨format_content_hash [0], utf8Bytes "final"⟩] []).nodes,
      root.node_type = utf8Bytes "final" ∧
      ∀ n ∈ (ProvenanceGraph.mk
          [⟨format_content_hash [0], utf8Bytes "final"⟩] []).nodes,
        LinkPath (ProvenanceGraph.mk
          [⟨format_content_hash [0], utf8Bytes "final"⟩] []).links
          n.id root.id :=
  build_graph_invariants (chain_reader 0) id 10000
    ⟨[⟨format_content_hash [0], utf8Bytes "final"⟩], []⟩ rfl

-- ===========================================================================
-- §9  JUMBF parser (crates/core/src/jumbf.rs)
-- ===========================================================================

/-- Box header size: 4-byte size + 4-byte type. -/
def HEADER_SIZE : Nat := 8

/-- `"jumb"` superbox type. -/
def BOX_TYPE_JUMB : Nat := 0x6A756D62

/-- `"jumd"` description box type. -/
def BOX_TYPE_JUMD : Nat := 0x6A756D64

/-- `"cbor"` content box type. -/
def BOX_TYPE_CBOR : Nat := 0x63626F72

/-- The fixed UUID of the C2PA signature assertion. -/
def CAI_SIGNATURE_UUID : List Nat :=
  [0x63, 0x32, 0x63, 0x73, 0x00, 0x11, 0x00, 0x10,
   0x80, 0x00, 0x00, 0xAA, 0x00, 0x38, 0x9B, 0x71]

/-- Wrapping `u64` subtraction (release-build Rust semantics), used for
`header.size - HEADER_SIZE` where the box size may be smaller than the
header. -/
def u64_sub (a b : Nat) : Nat :=
  (a + 18446744073709551616 - b) % 18446744073709551616

/-- Big-endian `u32` at `pos` (callers only use it with all four bytes
in bounds). -/
def be32 (data : List Nat) (pos : Nat) : Nat :=
  data.getD pos 0 * 16777216 + data.getD (pos + 1) 0 * 65536 +
    data.getD (pos + 2) 0 * 256 + data.getD (pos + 3) 0

/-- Big-endian `u64` at `pos`. -/
def be64 (data : List Nat) (pos : Nat) : Nat :=
  be32 data pos * 4294967296 + be32 data (pos + 4)

/-- Embedding of `read_header` (`crates/core/src/jumbf.rs`): read the
8-byte box header at `pos`; fewer than 8 bytes available yields the EOF
marker `(0, 0)`; `size == 1` reads an 8-byte extended size
(`read_exact`, so truncation is an error).  Returns
`((box_type, size), new position)`. -/
def read_header (data : List Nat) (pos : Nat) :
    Except CoreError ((Nat × Nat) × Nat) :=
  if data.length < pos + 8 then
    -- Cursor::read returned fewer than 8 bytes → EOF marker; the
    -- position is irrelevant because every caller breaks or errors.
    Except.ok ((0, 0), pos)
  else
    let size := be32 data pos
    let box_type := be32 data (pos + 4)
    if size = 1 then
      if data.length < pos + 16 then
        Except.error CoreError.contentHashExtractionFailed
      else
        Except.ok ((box_type, be64 data (pos + 8)), pos + 16)
    else
      Except.ok ((box_type, size), pos + 8)

/-- Description box contents. -/
structure DescInfo where
  uuid : List Nat
  label : List Nat
deriving DecidableEq, Repr

/-- The null-terminated-label read loop of `read_desc_info`: `allowed`
is `max_label_len - label.len()`, so `allowed = 0` is exactly the
source's `label.len() >= max_label_len` guard (malformed label —
prevents unbounded read); a failed byte read (EOF) is also an error. -/
def read_label_loop (data : List Nat) : Nat → Nat →
    Except CoreError (List Nat × Nat)
  | _, 0 => Except.error CoreError.contentHashExtractionFailed
  | pos, allowed + 1 =>
      if data.length ≤ pos then
        Except.error CoreError.contentHashExtractionFailed
      else
        let byte := data.getD pos 0
        if byte = 0 then Except.ok ([], pos + 1)
        else
          match read_label_loop data (pos + 1) allowed with
          | Except.error e => Except.error e
          | Except.ok (rest, p2) => Except.ok (byte :: rest, p2)

/-- Embedding of `read_desc_info` (`crates/core/src/jumbf.rs`): UUID,
toggle byte, optional null-terminated label bounded by the box body,
then skip padding.  Returns the description info and the new position.
(The source counts an empty label as zero bytes in `read_so_far` even
though its null byte was consumed; the embedding replicates that.) -/
def read_desc_info (data : List Nat) (pos : Nat) (content_size : Nat) :
    Except CoreError (DescInfo × Nat) :=
  if content_size < 17 then
    Except.error CoreError.contentHashExtractionFailed
  else if data.length < pos + 16 then
    Except.error CoreError.contentHashExtractionFailed
  else
    let uuid := (data.drop pos).take 16
    let pos1 := pos + 16
    if data.length < pos1 + 1 then
      Except.error CoreError.contentHashExtractionFailed
    else
      let toggles := data.getD pos1 0
      let pos2 := pos1 + 1
      match (if toggles &&& 2 ≠ 0 then
          read_label_loop data pos2 (content_size - 17)
        else
          Except.ok (([] : List Nat), pos2)) with
      | Except.error e => Except.error e
      | Except.ok (label, pos3) =>
          let read_so_far :=
            16 + 1 + (if label.isEmpty then 0 else label.length + 1)
          if read_so_far < content_size then
            Except.ok (⟨uuid, label⟩, pos3 + (content_size - read_so_far))
          else
            Except.ok (⟨uuid, label⟩, pos3)

/-- Embedding of `find_cbor_in_box` (`crates/core/src/jumbf.rs`): scan
boxes until the first `"cbor"` box; its payload must not exceed
`MAX_SIGNATURE_SIZE` and must be fully present.  `fuel` is initialized
to `box_end - pos`; the position strictly advances each iteration, so
fuel `0` implies the loop condition `pos < box_end` has failed, which is
the source's fall-through error. -/
def find_cbor_in_box (data : List Nat) (box_end : Nat) :
    Nat → Nat → Except CoreError (List Nat)
  | 0, _ => Except.error CoreError.contentHashExtractionFailed
  | fuel + 1, pos =>
      if box_end ≤ pos then
        Except.error CoreError.contentHashExtractionFailed
      else
        let box_start := pos
        match read_header data pos with
        | Except.error e => Except.error e
        | Except.ok ((box_type, size), pos2) =>
            if box_type = 0 ∨ size = 0 then
              Except.error CoreError.contentHashExtractionFailed
            else if box_type = BOX_TYPE_CBOR then
              let data_len := u64_sub size HEADER_SIZE
              if data_len > MAX_SIGNATURE_SIZE then
                Except.error CoreError.contentHashExtractionFailed
              else if data.length < pos2 + data_len then
                Except.error CoreError.contentHashExtractionFailed
              else
                Except.ok ((data.drop pos2).take data_len)
            else
              find_cbor_in_box data box_end fuel (box_start + size)

/-- Embedding of `find_signature_in_manifest`
(`crates/core/src/jumbf.rs`): scan child superboxes of the matched
manifest for the one whose description UUID is the C2PA signature UUID,
then extract its CBOR payload.  Fuel as in `find_cbor_in_box`. -/
def find_signature_in_manifest (data : List Nat) (manifest_end : Nat) :
    Nat → Nat → Except CoreError (List Nat)
  | 0, _ => Except.error CoreError.contentHashExtractionFailed
  | fuel + 1, pos =>
      if manifest_end ≤ pos then
        Except.error CoreError.contentHashExtractionFailed
      else
        let box_start := pos
        match read_header data pos with
        | Except.error e => Except.error e
        | Except.ok ((box_type, size), pos2) =>
            if box_type = 0 ∨ size = 0 then
              Except.error CoreError.contentHashExtractionFailed
            else if box_type = BOX_TYPE_JUMB then
              match read_header data pos2 with
              | Except.error e => Except.error e
              | Except.ok ((desc_type, desc_size), pos3) =>
                  if desc_type = BOX_TYPE_JUMD then
                    match read_desc_info data pos3
                        (u64_sub desc_size HEADER_SIZE) with
                    | Except.error e => Except.error e
                    | Except.ok (desc, pos4) =>
                        if desc.uuid = CAI_SIGNATURE_UUID then
                          find_cbor_in_box data (box_start + size)
                            (box_start + size - pos4) pos4
                        else
                          find_signature_in_manifest data manifest_end fuel
                            (box_start + size)
                  else
                    find_signature_in_manifest data manifest_end fuel
                      (box_start + size)
            else
              find_signature_in_manifest data manifest_end fuel
                (box_start + size)

/-- The manifest scan loop of `extract_signature_from_jumbf`: walk the
child superboxes of the store, comparing each description label with the
target; on a match, search that manifest for the signature box. -/
def scan_manifests (data : List Nat) (manifest_label : List Nat)
    (top_end : Nat) : Nat → Nat → Except CoreError (List Nat)
  | 0, _ => Except.error CoreError.contentHashExtractionFailed
  | fuel + 1, pos =>
      if top_end ≤ pos then
        Except.error CoreError.contentHashExtractionFailed
      else
        let child_start := pos
        match read_header data pos with
        | Except.error e => Except.error e
        | Except.ok ((box_type, size), pos2) =>
            if box_type = 0 ∨ size = 0 then
              Except.error CoreError.contentHashExtractionFailed
            else if box_type = BOX_TYPE_JUMB then
              match read_header data pos2 with
              | Except.error e => Except.error e
              | Except.ok ((desc_type, desc_size), pos3) =>
                  if desc_type = BOX_TYPE_JUMD then
                    match read_desc_info data pos3
                        (u64_sub desc_size HEADER_SIZE) with
                    | Except.error e => Except.error e
                    | Except.ok (desc, pos4) =>
                        if desc.label = manifest_label then
                          find_signature_in_manifest data
                            (child_start + size)
                            (child_start + size - pos4) pos4
                        else
                          scan_manifests data manifest_label top_end fuel
                            (child_start + size)
                  else
                    scan_manifests data manifest_label top_end fuel
                      (child_start + size)
            else
              scan_manifests data manifest_label top_end fuel
                (child_start + size)

/-- Embedding of `extract_signature_from_jumbf`
(`crates/core/src/jumbf.rs`): validate the top-level store superbox and
its description box, then scan the manifests for the target label. -/
def extract_signature_from_jumbf (jumbf_data : List Nat)
    (manifest_label : List Nat) : Except CoreError (List Nat) :=
  match read_header jumbf_data 0 with
  | Except.error e => Except.error e
  | Except.ok ((top_type, top_size), pos1) =>
      if top_type ≠ BOX_TYPE_JUMB then
        Except.error CoreError.contentHashExtractionFailed
      else
        match read_header jumbf_data pos1 with
        | Except.error e => Except.error e
        | Except.ok ((desc_type, desc_size), pos2) =>
            if desc_type ≠ BOX_TYPE_JUMD then
              Except.error CoreError.contentHashExtractionFailed
            else
              match read_desc_info jumbf_data pos2
                  (u64_sub desc_size HEADER_SIZE) with
              | Except.error e => Except.error e
              | Except.ok (_top_desc, pos3) =>
                  scan_manifests jumbf_data manifest_label top_size
                    (top_size - pos3) pos3

theorem read_label_loop_no_null (data : List Nat) :
    ∀ allowed pos, (∀ i, i < allowed → data.getD (pos + i) 0 ≠ 0) →
      read_label_loop data pos allowed =
        Except.error CoreError.contentHashExtractionFailed := by
  intro allowed
  induction allowed with
  | zero => intro pos _; rfl
  | succ a ih =>
      intro pos hnz
      unfold read_label_loop
      by_cases h1 : data.length ≤ pos
      · rw [if_pos h1]
      · rw [if_neg h1]
        have hb := hnz 0 (by omega)
        simp only [Nat.add_zero] at hb
        rw [if_neg hb]
        rw [ih (pos + 1) (fun i hi => by
          have := hnz (i + 1) (by omega)
          simpa [Nat.add_assoc, Nat.add_comm i 1] using this)]

/-- Big-endian bytes of a `u32`. -/
def be32bytes (n : Nat) : List Nat :=
  [n / 16777216 % 256, n / 65536 % 256, n / 256 % 256, n % 256]

/-- A JUMBF image whose store box parses but whose manifest description
box carries a label (toggle bit 0x02 set) that never null-terminates
within the box body (`content_size = 19`, label bytes `65 66`, no 0). -/
def jumbf_nonterminated_label_ex : List Nat :=
  be32bytes 68 ++ [106, 117, 109, 98] ++
  (be32bytes 25 ++ [106, 117, 109, 100] ++ List.replicate 16 0 ++ [0]) ++
  (be32bytes 35 ++ [106, 117, 109, 98] ++
    (be32bytes 27 ++ [106, 117, 109, 100] ++ List.replicate 16 0 ++
      [2, 65, 66]))

/-- A JUMBF image with a matching manifest `"m1"` whose signature
superbox contains a `"cbor"` box declaring a payload of
16 MiB + 1 bytes (size field 16777225). -/
def jumbf_oversize_cbor_ex : List Nat :=
  be32bytes 110 ++ [106, 117, 109, 98] ++
  (be32bytes 25 ++ [106, 117, 109, 100] ++ List.replicate 16 0 ++ [0]) ++
  (be32bytes 77 ++ [106, 117, 109, 98] ++
    (be32bytes 28 ++ [106, 117, 109, 100] ++ List.replicate 16 0 ++
      [2, 109, 49, 0]) ++
    (be32bytes 41 ++ [106, 117, 109, 98] ++
      (be32bytes 25 ++ [106, 117, 109, 100] ++ CAI_SIGNATURE_UUID ++ [0]) ++
      (be32bytes 16777225 ++ [99, 98, 111, 114])))

/-- C8.  The JUMBF parser rejects with `ContentHashExtractionFailed`
(and, the embedding being total, neither succeeds nor diverges): any
description box whose label (toggle bit set) has no null terminator
within the box body; any `"cbor"` signature payload declared larger than
16 MiB — checked before allocation; both shown end-to-end through
`extract_signature_from_jumbf` on concrete images.  The 16 MiB ceiling
is the fixed constant `MAX_SIGNATURE_SIZE`, not a parameter of any of
these functions. -/
theorem jumbf_malformed_rejected :
    (∀ data pos content_size, 17 ≤ content_size →
      data.getD (pos + 16) 0 &&& 2 ≠ 0 →
      (∀ i, i < content_size - 17 → data.getD (pos + 17 + i) 0 ≠ 0) →
      read_desc_info data pos content_size =
        Except.error CoreError.contentHashExtractionFailed) ∧
    (∀ data box_end fuel pos size pos2, pos < box_end →
      read_header data pos = Except.ok ((BOX_TYPE_CBOR, size), pos2) →
      u64_sub size HEADER_SIZE > MAX_SIGNATURE_SIZE →
      find_cbor_in_box data box_end (fuel + 1) pos =
        Except.error CoreError.contentHashExtractionFailed) ∧
    extract_signature_from_jumbf jumbf_nonterminated_label_ex
        (utf8Bytes "AB") =
      Except.error CoreError.contentHashExtractionFailed ∧
    extract_signature_from_jumbf jumbf_oversize_cbor_ex (utf8Bytes "m1") =
      Except.error CoreError.contentHashExtractionFailed ∧
    MAX_SIGNATURE_SIZE = 16 * 1024 * 1024 := by
  refine ⟨?_, ?_, rfl, rfl, rfl⟩
  · intro data pos content_size h17 hbit hnz
    have hloop := read_label_loop_no_null data (content_size - 17) (pos + 17)
      (fun i hi => hnz i hi)
    simp only [read_desc_info]
    rw [if_neg (by omega)]
    split_ifs with h1 h2
    · rfl
    · rfl
    · have heq : pos + 16 + 1 = pos + 17 := by omega
      rw [heq, hloop]
  · intro data box_end fuel pos size pos2 hlt hread hbig
    simp only [find_cbor_in_box]
    rw [if_neg (by omega)]
    simp only [hread]
    by_cases hsz : size = 0
    · rw [if_pos (Or.inr hsz)]
    · rw [if_neg (by simp [BOX_TYPE_CBOR, hsz])]
      rw [if_pos trivial, if_pos hbig]

/-- Witness for C8's general components at concrete inputs: a 19-byte
description body whose label bytes `5 6` never terminate, and a lone
oversized `"cbor"` box. -/
theorem jumbf_malformed_rejected_witness :
    read_desc_info (List.replicate 16 0 ++ [2, 5, 6]) 0 19 =
        Except.error CoreError.contentHashExtractionFailed ∧
    find_cbor_in_box (be32bytes 16777225 ++ [99, 98, 111, 114]) 8 1 0 =
      Except.error CoreError.contentHashExtractionFailed := by
  have T := jumbf_malformed_rejected
  exact ⟨T.1 (List.replicate 16 0 ++ [2, 5, 6]) 0 19 (by decide) (by decide)
      (by decide),
    T.2.1 (be32bytes 16777225 ++ [99, 98, 111, 114]) 8 0 0 16777225 8
      (by decide) (by rfl) (by decide)⟩

-- ===========================================================================
-- §10  RFC 3339 parsing (crates/core/src/lib.rs, parse_rfc3339_to_epoch)
-- ===========================================================================

/-- Rust `char::is_whitespace`, restricted to the byte range (the parser
input is ASCII). -/
def isWsByte (b : Nat) : Bool :=
  b = 32 || (9 ≤ b && b ≤ 13)

/-- Rust `str::trim`. -/
def trimBytes (s : List Nat) : List Nat :=
  ((s.dropWhile isWsByte).reverse.dropWhile isWsByte).reverse

/-- Rust `str::strip_suffix`. -/
def stripSuffix (s suf : List Nat) : Option (List Nat) :=
  if suf.length ≤ s.length ∧ s.drop (s.length - suf.length) = suf then
    some (s.take (s.length - suf.length))
  else
    none

/-- Rust `str::split_once`. -/
def splitOnceByte (sep : Nat) : List Nat → Option (List Nat × List Nat)
  | [] => none
  | c :: rest =>
      if c = sep then some ([], rest)
      else
        match splitOnceByte sep rest with
        | some (a, b) => some (c :: a, b)
        | none => none

/-- Rust `str::split` collected into a vector (empty pieces kept). -/
def splitByte (sep : Nat) : List Nat → List (List Nat)
  | [] => [[]]
  | c :: rest =>
      if c = sep then [] :: splitByte sep rest
      else
        match splitByte sep rest with
        | [] => [[c]]
        | a :: more => (c :: a) :: more

/-- Digit run of a Rust integer parse (accumulator form). -/
def parseNatDigitsAux : List Nat → Nat → Option Nat
  | [], acc => some acc
  | c :: rest, acc =>
      if 48 ≤ c ∧ c ≤ 57 then parseNatDigitsAux rest (acc * 10 + (c - 48))
      else none

/-- Rust `str::parse::<i64>`: optional sign, one or more digits, range
check against the `i64` bounds. -/
def parseI64 (s : List Nat) : Option Int :=
  match s with
  | [] => none
  | c :: rest =>
      let signed : Bool × List Nat :=
        if c = 43 then (false, rest)
        else if c = 45 then (true, rest)
        else (false, c :: rest)
      match signed with
      | (neg, digits) =>
          if digits.isEmpty then none
          else
            match parseNatDigitsAux digits 0 with
            | none => none
            | some n =>
                let v : Int := if neg then -(n : Int) else (n : Int)
                if v < -9223372036854775808 ∨ v > 9223372036854775807 then
                  none
                else
                  some v

/-- Embedding of `parse_rfc3339_to_epoch` (`crates/core/src/lib.rs`,
lines 117-155): trim, strip the `Z` or `+00:00` suffix, split the date
at `-` and the time (fractional part dropped) at `:`, then the
days-from-civil formula with truncating (`i64`) division.  Integer
overflow of the `i64` arithmetic cannot occur for any input whose year
field has at most 15 digits; the embedding uses unbounded integers. -/
def parse_rfc3339_to_epoch (s0 : List Nat) : Option Nat :=
  let s := trimBytes s0
  match (match stripSuffix s [90] with
         | some d => some d
         | none => stripSuffix s (utf8Bytes "+00:00")) with
  | none => none
  | some date_time =>
    match splitOnceByte 84 date_time with
    | none => none
    | some (date_part, time_part) =>
        match splitByte 45 date_part with
        | [ys, ms, ds] =>
            match parseI64 ys, parseI64 ms, parseI64 ds with
            | some year, some month, some day =>
                match (splitByte 46 time_part).head? with
                | none => none
                | some time_no_frac =>
                    match splitByte 58 time_no_frac with
                    | [hs, mins, ss] =>
                        match parseI64 hs, parseI64 mins, parseI64 ss with
                        | some hour, some min, some sec =>
                            let m : Int :=
                              if month ≤ 2 then month + 9 else month - 3
                            let y : Int :=
                              if month ≤ 2 then year - 1 else year
                            let days : Int :=
                              365 * y + y.tdiv 4 - y.tdiv 100 + y.tdiv 400 +
                                (m * 306 + 5).tdiv 10 + day - 1 - 719468
                            let epoch : Int :=
                              days * 86400 + hour * 3600 + min * 60 + sec
                            if 0 ≤ epoch then some epoch.toNat else none
                        | _, _, _ => none
                    | _ => none
            | _, _, _ => none
        | _ => none

/-- Two-digit zero-padded decimal. -/
def pad2 (n : Nat) : List Nat :=
  [48 + n / 10, 48 + n % 10]

/-- Four-digit zero-padded decimal. -/
def pad4 (n : Nat) : List Nat :=
  [48 + n / 1000, 48 + n / 100 % 10, 48 + n / 10 % 10, 48 + n % 10]

/-- An RFC 3339 rendering of a whole-second UTC instant: date, `T`,
time, optional fractional digits, and either `Z` or `+00:00`. -/
def render_rfc3339 (year month day hour min sec : Nat) (frac : List Nat)
    (zSuffix : Bool) : List Nat :=
  pad4 year ++ [45] ++ pad2 month ++ [45] ++ pad2 day ++ [84] ++
    pad2 hour ++ [58] ++ pad2 min ++ [58] ++ pad2 sec ++
    (if frac.isEmpty then [] else 46 :: frac) ++
    (if zSuffix then [90] else utf8Bytes "+00:00")

/-- Gregorian leap year. -/
def isLeap (y : Nat) : Bool :=
  (y % 4 = 0 && y % 100 ≠ 0) || y % 400 = 0

/-- Days in a month of the proleptic Gregorian calendar. -/
def daysInMonth (y m : Nat) : Nat :=
  match m with
  | 1 => 31
  | 2 => if isLeap y then 29 else 28
  | 3 => 31
  | 4 => 30
  | 5 => 31
  | 6 => 30
  | 7 => 31
  | 8 => 31
  | 9 => 30
  | 10 => 31
  | 11 => 30
  | 12 => 31
  | _ => 0

/-- Days in a year. -/
def daysInYear (y : Nat) : Nat :=
  if isLeap y then 366 else 365

/-- Days from 1970-01-01 to the start of year `1970 + n`. -/
def daysBeforeYearAux : Nat → Nat
  | 0 => 0
  | n + 1 => daysBeforeYearAux n + daysInYear (1970 + n)

/-- Days from 1970-01-01 to the start of year `y` (reference count). -/
def daysBeforeYear (y : Nat) : Nat :=
  daysBeforeYearAux (y - 1970)

/-- Days from the start of the year to the start of month `k + 1`. -/
def daysBeforeMonthAux (y : Nat) : Nat → Nat
  | 0 => 0
  | k + 1 => daysBeforeMonthAux y k + daysInMonth y (k + 1)

/-- Days from the start of year `y` to the start of month `m`. -/
def daysBeforeMonth (y m : Nat) : Nat :=
  daysBeforeMonthAux y (m - 1)

/-- Reference Unix epoch seconds of the civil instant
`y-m-d h:mi:s` (UTC), by direct day counting from 1970-01-01. -/
def epochOfCivil (y m d h mi s : Nat) : Nat :=
  (daysBeforeYear y + daysBeforeMonth y m + (d - 1)) * 86400 +
    h * 3600 + mi * 60 + s

/-- The year/month part of the parser's days-from-civil formula. -/
def hinnant_days_part (year month : Nat) : Int :=
  365 * (if (month : Int) ≤ 2 then (year : Int) - 1 else (year : Int)) +
    (if (month : Int) ≤ 2 then (year : Int) - 1 else (year : Int)).tdiv 4 -
    (if (month : Int) ≤ 2 then (year : Int) - 1 else (year : Int)).tdiv 100 +
    (if (month : Int) ≤ 2 then (year : Int) - 1 else (year : Int)).tdiv 400 +
    ((if (month : Int) ≤ 2 then (month : Int) + 9 else (month : Int) - 3) *
      306 + 5).tdiv 10

set_option maxHeartbeats 1000000 in
theorem hinnant_table : ∀ dy, dy < 130 → ∀ dm, dm < 12 →
    hinnant_days_part (1970 + dy) (1 + dm) =
      719468 + (daysBeforeYear (1970 + dy) : Int) +
        (daysBeforeMonth (1970 + dy) (1 + dm) : Int) := by
  decide

theorem dropWhile_eq_self_of_all {p : Nat → Bool} (s : List Nat)
    (h : ∀ c ∈ s, p c = false) : s.dropWhile p = s := by
  cases s with
  | nil => rfl
  | cons c rest => simp [List.dropWhile, h c (by simp)]

theorem trimBytes_eq_self (s : List Nat)
    (h : ∀ c ∈ s, isWsByte c = false) : trimBytes s = s := by
  unfold trimBytes
  rw [dropWhile_eq_self_of_all s h,
    dropWhile_eq_self_of_all s.reverse (fun c hc => h c (by simpa using hc)),
    List.reverse_reverse]

theorem stripSuffix_append (a b : List Nat) :
    stripSuffix (a ++ b) b = some a := by
  unfold stripSuffix
  rw [if_pos]
  · congr 1
    have : (a ++ b).length - b.length = a.length := by simp
    rw [this, List.take_left]
  · constructor
    · simp
    · have : (a ++ b).length - b.length = a.length := by simp
      rw [this, List.drop_left]

theorem stripSuffix_single_ne (a : List Nat) (c : Nat) (h : c ≠ 90) :
    stripSuffix (a ++ [c]) [90] = none := by
  unfold stripSuffix
  rw [if_neg]
  intro ⟨h1, h2⟩
  have hl : (a ++ [c]).length - [(90 : Nat)].length = a.length := by simp
  rw [hl, List.drop_left] at h2
  simp at h2
  exact h h2

theorem splitOnceByte_append (sep : Nat) (xs ys : List Nat)
    (h : sep ∉ xs) : splitOnceByte sep (xs ++ sep :: ys) = some (xs, ys) := by
  induction xs with
  | nil => simp [splitOnceByte]
  | cons c rest ih =>
      simp only [List.cons_append, splitOnceByte]
      rw [if_neg (by simp at h; omega)]
      rw [List.append_eq, ih (by simp at h; tauto)]

theorem splitByte_no_sep (sep : Nat) (xs : List Nat) (h : sep ∉ xs) :
    splitByte sep xs = [xs] := by
  induction xs with
  | nil => rfl
  | cons c rest ih =>
      simp only [splitByte]
      rw [if_neg (by simp at h; omega)]
      rw [ih (by simp at h; tauto)]

theorem splitByte_append (sep : Nat) (xs rest : List Nat) (h : sep ∉ xs) :
    splitByte sep (xs ++ sep :: rest) = xs :: splitByte sep rest := by
  induction xs with
  | nil => simp [splitByte]
  | cons c t ih =>
      simp only [List.cons_append, splitByte]
      rw [if_neg (by simp at h; omega)]
      rw [List.append_eq, ih (by simp at h; tauto)]

theorem parseI64_pad2 (n : Nat) (h : n < 100) :
    parseI64 (pad2 n) = some (n : Int) := by
  have h1 : ¬(48 + n / 10 = 43) := by omega
  have h2 : ¬(48 + n / 10 = 45) := by omega
  have h3 : 48 ≤ 48 + n / 10 ∧ 48 + n / 10 ≤ 57 := by omega
  have h4 : 48 ≤ 48 + n % 10 ∧ 48 + n % 10 ≤ 57 := by omega
  simp only [parseI64, pad2, h1, h2, if_false, List.isEmpty_cons,
    parseNatDigitsAux, if_pos h3, if_pos h4, if_true, Bool.false_eq_true,
    ite_false]
  rw [if_neg]
  · simp only [Option.some.injEq]
    omega
  · push_cast
    omega

theorem parseI64_pad4 (n : Nat) (h : n < 10000) :
    parseI64 (pad4 n) = some (n : Int) := by
  have h1 : ¬(48 + n / 1000 = 43) := by omega
  have h2 : ¬(48 + n / 1000 = 45) := by omega
  have h3 : 48 ≤ 48 + n / 1000 ∧ 48 + n / 1000 ≤ 57 := by omega
  have h4 : 48 ≤ 48 + n / 100 % 10 ∧ 48 + n / 100 % 10 ≤ 57 := by omega
  have h5 : 48 ≤ 48 + n / 10 % 10 ∧ 48 + n / 10 % 10 ≤ 57 := by omega
  have h6 : 48 ≤ 48 + n % 10 ∧ 48 + n % 10 ≤ 57 := by omega
  simp only [parseI64, pad4, h1, h2, if_false, List.isEmpty_cons,
    parseNatDigitsAux, if_pos h3, if_pos h4, if_pos h5, if_pos h6, if_true,
    Bool.false_eq_true, ite_false]
  rw [if_neg]
  · simp only [Option.some.injEq]
    omega
  · push_cast
    omega

theorem pad2_bounds (n : Nat) (h : n ≤ 99) :
    ∀ c ∈ pad2 n, 48 ≤ c ∧ c ≤ 57 := by
  intro c hc
  simp only [pad2, List.mem_cons, List.not_mem_nil, or_false] at hc
  rcases hc with rfl | rfl <;> omega

theorem pad4_bounds (n : Nat) (h : n ≤ 9999) :
    ∀ c ∈ pad4 n, 48 ≤ c ∧ c ≤ 57 := by
  intro c hc
  simp only [pad4, List.mem_cons, List.not_mem_nil, or_false] at hc
  rcases hc with rfl | rfl | rfl | rfl <;> omega

theorem daysInMonth_le (y m : Nat) : daysInMonth y m ≤ 31 := by
  unfold daysInMonth
  split <;> first | omega | (split <;> omega)

theorem utf8_offset : utf8Bytes "+00:00" = [43, 48, 48, 58, 48, 48] := by
  decide

/-- C9: for every whole-second UTC instant t with
1970-01-01T00:00:00Z ≤ t < 2100-01-01T00:00:00Z, rendering t as an
RFC 3339 string with a `Z` or `+00:00` suffix, with or without
fractional-second digits, and applying `parse_rfc3339_to_epoch` yields
`some` of exactly the Unix epoch seconds of t (reference count
`epochOfCivil`). -/
theorem parse_rfc3339_roundtrip
    (year month day hour minute sec : Nat) (frac : List Nat) (z : Bool)
    (hy1 : 1970 ≤ year) (hy2 : year ≤ 2099) (hm1 : 1 ≤ month)
    (hm2 : month ≤ 12) (hd1 : 1 ≤ day) (hd2 : day ≤ daysInMonth year month)
    (hh : hour ≤ 23) (hmi : minute ≤ 59) (hsec : sec ≤ 59)
    (hfrac : ∀ c ∈ frac, 48 ≤ c ∧ c ≤ 57) :
    parse_rfc3339_to_epoch
        (render_rfc3339 year month day hour minute sec frac z) =
      some (epochOfCivil year month day hour minute sec) := by
  have hd31 : day ≤ 31 := le_trans hd2 (daysInMonth_le year month)
  have hpy := pad4_bounds year (by omega)
  have hpm := pad2_bounds month (by omega)
  have hpd := pad2_bounds day (by omega)
  have hph := pad2_bounds hour (by omega)
  have hpmi := pad2_bounds minute (by omega)
  have hps := pad2_bounds sec (by omega)
  set date := pad4 year ++ [45] ++ pad2 month ++ [45] ++ pad2 day with hdate
  set timecore := pad2 hour ++ [58] ++ pad2 minute ++ [58] ++ pad2 sec
    with htc
  set fracPart := (if frac.isEmpty then ([] : List Nat) else 46 :: frac)
    with hfp
  set dt := date ++ 84 :: (timecore ++ fracPart) with hdt
  have hdateB : ∀ c ∈ date, (48 ≤ c ∧ c ≤ 57) ∨ c = 45 := by
    intro c hc
    rw [hdate] at hc
    simp only [List.append_assoc, List.mem_append, List.mem_cons,
      List.not_mem_nil, or_false] at hc
    rcases hc with h | h | h | h | h
    · exact Or.inl (hpy c h)
    · exact Or.inr h
    · exact Or.inl (hpm c h)
    · exact Or.inr h
    · exact Or.inl (hpd c h)
  have htcB : ∀ c ∈ timecore, (48 ≤ c ∧ c ≤ 57) ∨ c = 58 := by
    intro c hc
    rw [htc] at hc
    simp only [List.append_assoc, List.mem_append, List.mem_cons,
      List.not_mem_nil, or_false] at hc
    rcases hc with h | h | h | h | h
    · exact Or.inl (hph c h)
    · exact Or.inr h
    · exact Or.inl (hpmi c h)
    · exact Or.inr h
    · exact Or.inl (hps c h)
  have hfpB : ∀ c ∈ fracPart, 43 ≤ c := by
    intro c hc
    rw [hfp] at hc
    by_cases hfe : frac.isEmpty
    · rw [if_pos hfe] at hc
      cases hc
    · rw [if_neg hfe] at hc
      rcases List.mem_cons.mp hc with rfl | h
      · omega
      · have := hfrac c h
        omega
  have hdtB : ∀ c ∈ dt, 43 ≤ c := by
    intro c hc
    rw [hdt] at hc
    rcases List.mem_append.mp hc with h | h
    · rcases hdateB c h with ⟨h1, _⟩ | rfl <;> omega
    · rcases List.mem_cons.mp h with rfl | h
      · omega
      · rcases List.mem_append.mp h with h | h
        · rcases htcB c h with ⟨h1, _⟩ | rfl <;> omega
        · exact hfpB c h
  have hrender : render_rfc3339 year month day hour minute sec frac z =
      dt ++ (if z then [90] else utf8Bytes "+00:00") := by
    rw [hdt, hdate, htc, hfp]
    simp [render_rfc3339, List.append_assoc]
  have hallR : ∀ c ∈ render_rfc3339 year month day hour minute sec frac z,
      isWsByte c = false := by
    intro c hc
    rw [hrender] at hc
    have h43 : 43 ≤ c := by
      rcases List.mem_append.mp hc with h | h
      · exact hdtB c h
      · cases z with
        | true => simp at h; omega
        | false =>
            rw [if_neg (by simp), utf8_offset] at h
            simp only [List.mem_cons, List.not_mem_nil, or_false] at h
            rcases h with rfl | rfl | rfl | rfl | rfl | rfl <;> omega
    simp only [isWsByte]
    simp only [Bool.or_eq_false_iff, decide_eq_false_iff_not,
      Bool.and_eq_false_iff]
    omega
  have htrim : trimBytes (render_rfc3339 year month day hour minute sec
      frac z) = render_rfc3339 year month day hour minute sec frac z :=
    trimBytes_eq_self _ hallR
  -- the split of the date part at the two dashes
  have h45y : (45 : Nat) ∉ pad4 year := fun hm => by
    have := hpy 45 hm; omega
  have h45m : (45 : Nat) ∉ pad2 month := fun hm => by
    have := hpm 45 hm; omega
  have h45d : (45 : Nat) ∉ pad2 day := fun hm => by
    have := hpd 45 hm; omega
  have hdate' : date = pad4 year ++ 45 :: (pad2 month ++ 45 :: pad2 day) :=
    by rw [hdate]; simp [List.append_assoc]
  have hsplit45 : splitByte 45 date = [pad4 year, pad2 month, pad2 day] := by
    rw [hdate', splitByte_append 45 _ _ h45y,
      splitByte_append 45 _ _ h45m, splitByte_no_sep 45 _ h45d]
  -- the split of the time part at the two colons
  have h58h : (58 : Nat) ∉ pad2 hour := fun hm => by
    have := hph 58 hm; omega
  have h58mi : (58 : Nat) ∉ pad2 minute := fun hm => by
    have := hpmi 58 hm; omega
  have h58s : (58 : Nat) ∉ pad2 sec := fun hm => by
    have := hps 58 hm; omega
  have htc' : timecore = pad2 hour ++ 58 :: (pad2 minute ++ 58 :: pad2 sec)
    := by rw [htc]; simp [List.append_assoc]
  have hsplit58 : splitByte 58 timecore =
      [pad2 hour, pad2 minute, pad2 sec] := by
    rw [htc', splitByte_append 58 _ _ h58h,
      splitByte_append 58 _ _ h58mi, splitByte_no_sep 58 _ h58s]
  -- dropping the fractional part
  have h46tc : (46 : Nat) ∉ timecore := fun hm => by
    rcases htcB 46 hm with ⟨h1, _⟩ | h1 <;> omega
  have hhead : (splitByte 46 (timecore ++ fracPart)).head? =
      some timecore := by
    rw [hfp]
    by_cases hfe : frac.isEmpty
    · rw [if_pos hfe, List.append_nil, splitByte_no_sep 46 _ h46tc]
      rfl
    · rw [if_neg hfe, splitByte_append 46 _ _ h46tc]
      rfl
  -- splitting date from time at the T
  have h84 : (84 : Nat) ∉ date := fun hm => by
    rcases hdateB 84 hm with ⟨_, h1⟩ | h1 <;> omega
  have hsplitT : splitOnceByte 84 dt = some (date, timecore ++ fracPart) :=
    by rw [hdt]; exact splitOnceByte_append 84 _ _ h84
  -- the calendar arithmetic
  have ht := hinnant_table (year - 1970) (by omega) (month - 1) (by omega)
  rw [show 1970 + (year - 1970) = year from by omega,
    show 1 + (month - 1) = month from by omega] at ht
  simp only [hinnant_days_part] at ht
  -- assemble, by the shape of the suffix
  cases z with
  | true =>
      have hstrip : stripSuffix (render_rfc3339 year month day hour minute
          sec frac true) [90] = some dt := by
        rw [hrender, if_pos rfl]
        exact stripSuffix_append dt [90]
      simp only [parse_rfc3339_to_epoch, htrim, hstrip, hsplitT, hsplit45,
        parseI64_pad4 year (by omega), parseI64_pad2 month (by omega),
        parseI64_pad2 day (by omega), hhead, hsplit58,
        parseI64_pad2 hour (by omega), parseI64_pad2 minute (by omega),
        parseI64_pad2 sec (by omega)]
      rw [ht]
      rw [if_pos (by omega)]
      simp only [Option.some.injEq, epochOfCivil]
      omega
  | false =>
      have hr2 : render_rfc3339 year month day hour minute sec frac false =
          (dt ++ [43, 48, 48, 58, 48]) ++ [48] := by
        rw [hrender, if_neg (by simp), utf8_offset]
        simp [List.append_assoc]
      have hstripZ : stripSuffix (render_rfc3339 year month day hour minute
          sec frac false) [90] = none := by
        rw [hr2]
        exact stripSuffix_single_ne _ 48 (by omega)
      have hstrip : stripSuffix (render_rfc3339 year month day hour minute
          sec frac false) (utf8Bytes "+00:00") = some dt := by
        rw [hrender, if_neg (by simp)]
        exact stripSuffix_append dt _
      simp only [parse_rfc3339_to_epoch, htrim, hstripZ, hstrip, hsplitT,
        hsplit45, parseI64_pad4 year (by omega),
        parseI64_pad2 month (by omega), parseI64_pad2 day (by omega),
        hhead, hsplit58, parseI64_pad2 hour (by omega),
        parseI64_pad2 minute (by omega), parseI64_pad2 sec (by omega)]
      rw [ht]
      rw [if_pos (by omega)]
      simp only [Option.some.injEq, epochOfCivil]
      omega

theorem parse_rfc3339_roundtrip_witness :
    parse_rfc3339_to_epoch
        (render_rfc3339 2024 1 1 0 0 0 [] true) =
      some (epochOfCivil 2024 1 1 0 0 0) ∧
    epochOfCivil 2024 1 1 0 0 0 = 1704067200 :=
  ⟨parse_rfc3339_roundtrip 2024 1 1 0 0 0 [] true (by decide) (by decide)
    (by decide) (by decide) (by decide) (by decide) (by decide) (by decide)
    (by decide) (by decide),
   by decide⟩
